import Mathlib

/-!
Shallow embedding of the MorphIO SWC reader core
(`src/src/readers/morphologySWC.cpp`) and verification of the spec claims.

Conventions of the embedding:
* machine floats (`morphio::floatType`) are modelled as `ℚ`;
* `unsigned int` values are `Nat` reduced mod `2^32` where the source casts;
* `size_t` is `Nat`, with `std::string::npos` as `2^64 - 1`;
* fallible code returns `Except Err`; calls that would be undefined behaviour
  or throw `std::out_of_range` (`.at` on an absent key) return `Err.fault`;
* loops are modelled with explicit fuel (`Err.fuelExhausted` on exhaustion,
  unreachable for the inputs considered); and
* warning emission (`printError` to the warning sink) is modelled by
  accumulating `Warning` values alongside the data result.
-/

namespace MorphioSWC

attribute [local semireducible] Rat.add Rat.mul Rat.inv Rat.sub

/-- `details::SWC_UNDEFINED_PARENT` (source line 26). -/
def SWC_UNDEFINED_PARENT : Int := -1

/-- `details::SWC_ROOT = 0xFFFFFFFD` (source line 27). -/
def SWC_ROOT : Nat := 4294967293

/-- `std::string::npos` for a 64-bit `size_t`. -/
def NPOS : Nat := 2 ^ 64 - 1

/-- Modulus of `unsigned int` (32-bit). -/
def UINT_MOD : Nat := 2 ^ 32

/-- Modelled from the spec: `morphio::epsilon`, "a small epsilon" used for the
diameter and coordinate tolerance checks; its header is not under `src/`.
The concrete value is immaterial to the claims, which only use its positivity
and the structure of the comparisons. -/
def epsilon : ℚ := 1 / 1000000

/-- `morphio::SECTION_SOMA` (`SectionType` value 1; spec: "1 is soma"). -/
def SECTION_SOMA : Int := 1

/-- Modelled from the spec: `morphio::SECTION_OUT_OF_RANGE_START`, the
"sentinel out-of-range start" bounding valid section types from above; its
header is not under `src/`. The claims do not depend on the exact value. -/
def SECTION_OUT_OF_RANGE_START : Int := 20

/-- A 3-d point `(x, y, z)`. -/
abbrev Point := ℚ × ℚ × ℚ

/-- `morphio::readers::Sample`: one parsed SWC record. -/
structure Sample where
  id : Nat
  type : Int
  point : Point
  diameter : ℚ
  parentId : Nat
  lineNumber : Nat
deriving Repr, DecidableEq

/-- Default-constructed `Sample` (used by `unordered_map::operator[]`). -/
instance : Inhabited Sample := ⟨⟨0, 0, (0, 0, 0), 0, 0, 0⟩⟩

/-- Fatal error kinds (section 7 of the spec).  `ERROR_REPEATED_ID` carries the
diagnostic sample the source reads from the flat sample vector at index
`sample.id` (`samples[sample.id]`, source line 334), as an `Option` so that an
out-of-bounds access is observable. -/
inductive Err where
  | EARLY_END_OF_FILE
  | ERROR_LINE_NON_PARSABLE
  | ERROR_NEGATIVE_ID
  | ERROR_SELF_PARENT
  | ERROR_REPEATED_ID (diagnostic : Option Sample)
  | ERROR_UNSUPPORTED_SECTION_TYPE
  | ERROR_MISSING_PARENT
  | ERROR_SOMA_WITH_NEURITE_PARENT
  | ERROR_MULTIPLE_SOMATA
  | ERROR_SOMA_BIFURCATION
  | fault
  | fuelExhausted
deriving Repr, DecidableEq

/-- Warning kinds emitted to the warning sink. -/
inductive Warning where
  | ZERO_DIAMETER
  | DISCONNECTED_NEURITE
  | SOMA_NON_CONFORM
  | WRONG_ROOT_POINT
deriving Repr, DecidableEq

deriving instance DecidableEq for Except

/-! ### Association lists

`samples_` and `children_` are `std::unordered_map`s.  An unordered map has no
observable iteration order in this code (all iteration is over vectors), so we
model both as association lists kept sorted by key: lookup-equivalent to the
hash map, and canonical so that maps built by key-disjoint insertions in
different orders are equal. -/

/-- Lookup in an association list (`unordered_map::find`). -/
def lookupA {α : Type} (m : List (Nat × α)) (k : Nat) : Option α :=
  match m with
  | [] => none
  | (k', v) :: rest => if k = k' then some v else lookupA rest k

/-- `unordered_map::count` (as a membership test; keys are unique). -/
def containsA {α : Type} (m : List (Nat × α)) (k : Nat) : Bool :=
  (lookupA m k).isSome

/-- Key-sorted insertion of a fresh binding (`unordered_map::insert` on a key
that is absent; the caller checks absence first). -/
def insertSorted {α : Type} : List (Nat × α) → Nat → α → List (Nat × α)
  | [], k, v => [(k, v)]
  | (k', v') :: rest, k, v =>
    if k < k' then (k, v) :: (k', v') :: rest
    else (k', v') :: insertSorted rest k v

/-- `unordered_map::operator[] = v`: insert or overwrite. -/
def insertReplace {α : Type} : List (Nat × α) → Nat → α → List (Nat × α)
  | [], k, v => [(k, v)]
  | (k', v') :: rest, k, v =>
    if k = k' then (k, v) :: rest
    else if k < k' then (k, v) :: (k', v') :: rest
    else (k', v') :: insertReplace rest k v

/-- `children_[parentId].push_back(id)`: append to the (possibly
default-constructed) child list of a key. -/
def childAppend : List (Nat × List Nat) → Nat → Nat → List (Nat × List Nat)
  | [], k, v => [(k, [v])]
  | (k', l) :: rest, k, v =>
    if k = k' then (k, l ++ [v]) :: rest
    else if k < k' then (k, [v]) :: (k', l) :: rest
    else (k', l) :: childAppend rest k v

/-! ### Tokenizer (`details::SWCTokenizer`)

The cursor `pos` and the line counter `line` are passed explicitly; the text is
a `List Char`. -/

/-- Whitespace skipped inside a line: space, tab, carriage return. -/
def isWS (c : Char) : Bool := c = ' ' || c = '\t' || c = '\r'

/-- `std::string::find_first_of(value, pos)` (position form). -/
def findCharFrom (cs : List Char) (c : Char) (pos : Nat) : Option Nat :=
  match (cs.drop pos).findIdx? (fun x => x = c) with
  | some i => some (pos + i)
  | none => none

/-- `std::string::find_first_not_of(" \t\r", pos)` (position form). -/
def findNotWSFrom (cs : List Char) (pos : Nat) : Option Nat :=
  match (cs.drop pos).findIdx? (fun x => !isWS x) with
  | some i => some (pos + i)
  | none => none

/-- `SWCTokenizer::done`. -/
def done (cs : List Char) (pos : Nat) : Bool := cs.length ≤ pos

/-- `SWCTokenizer::skip_to` (source lines 52-58).  Note the source's
not-found branch stores `contents_.size()` into `pos_`, but the following
unconditional `pos_ = pos;` overwrites it with `npos`, so the function
actually leaves the cursor at `npos` when `value` does not occur. -/
def skip_to (cs : List Char) (pos : Nat) (c : Char) : Nat :=
  match findCharFrom cs c pos with
  | some p => p
  | none => NPOS

/-- `SWCTokenizer::advance_to_non_whitespace`. -/
def advance_to_non_whitespace (cs : List Char) (pos : Nat) : Nat :=
  if done cs pos then pos
  else
    match findNotWSFrom cs pos with
    | some p => p
    | none => cs.length

/-- Loop body of `SWCTokenizer::consume_line_and_trailing_comments`, entered
after an initial `advance_to_non_whitespace`; `found` is `found_newline`. -/
def consumeLineLoop (cs : List Char) :
    Nat → Nat → Nat → Bool → Except Err (Nat × Nat × Bool)
  | 0, _, _, _ => .error .fuelExhausted
  | fuel + 1, pos, line, found =>
    if done cs pos then .ok (pos, line, true)
    else
      let c := cs.getD pos ' '
      if c = '#' then
        consumeLineLoop cs fuel (advance_to_non_whitespace cs (skip_to cs pos '\n')) line found
      else if c = '\n' then
        consumeLineLoop cs fuel (advance_to_non_whitespace cs (pos + 1)) (line + 1) true
      else .ok (pos, line, found)

/-- `SWCTokenizer::consume_line_and_trailing_comments` (source lines 102-120).
Returns the new cursor, the new line counter, and `found_newline || done()`. -/
def consume_line_and_trailing_comments (cs : List Char) (fuel pos line : Nat) :
    Except Err (Nat × Nat × Bool) :=
  consumeLineLoop cs fuel (advance_to_non_whitespace cs pos) line false

/-- The `while (!done() && consume_line_and_trailing_comments())` loop of
`advance_to_number`. -/
def advanceToNumberLoop (cs : List Char) :
    Nat → Nat → Nat → Except Err (Nat × Nat)
  | 0, _, _ => .error .fuelExhausted
  | fuel + 1, pos, line =>
    if done cs pos then .ok (pos, line)
    else
      match consume_line_and_trailing_comments cs (cs.length + 1) pos line with
      | .error e => .error e
      | .ok (pos1, line1, found) =>
        if found then advanceToNumberLoop cs fuel pos1 line1 else .ok (pos1, line1)

/-- `SWCTokenizer::advance_to_number` (source lines 72-86). -/
def advance_to_number (cs : List Char) (pos line : Nat) : Except Err (Nat × Nat) := do
  let (pos, line) ← advanceToNumberLoop cs (cs.length + 1) pos line
  if done cs pos then throw Err.EARLY_END_OF_FILE
  let c := cs.getD pos ' '
  if c.isDigit || c = '-' || c = '+' || c = '.' then return (pos, line)
  else throw Err.ERROR_LINE_NON_PARSABLE

/-- Digit run scanner used by the number parsers: returns the accumulated
value, the number of digits consumed, and the new cursor. -/
def takeDigitsLoop (cs : List Char) : Nat → Nat → Nat → Nat → Nat × Nat × Nat
  | 0, pos, acc, count => (acc, count, pos)
  | fuel + 1, pos, acc, count =>
    let c := cs.getD pos ' '
    if decide (pos < cs.length) && c.isDigit then
      takeDigitsLoop cs fuel (pos + 1) (acc * 10 + (c.toNat - 48)) (count + 1)
    else (acc, count, pos)

/-- Digit run scanner, with fuel instantiated. -/
def takeDigits (cs : List Char) (pos : Nat) : Nat × Nat × Nat :=
  takeDigitsLoop cs (cs.length + 1) pos 0 0

/-- Modelled from the spec: `morphio::StringToNumber::toInt` (declared in a
header that is not under `src/`); per spec section 4.1 it parses a signed
integer literal starting at the cursor, advancing past it, and a parse
failure is fatal with `ERROR_LINE_NON_PARSABLE`. -/
def stn_toInt (cs : List Char) (pos : Nat) : Except Err (Int × Nat) :=
  let (sign, pos1) : Int × Nat :=
    if cs.getD pos ' ' = '-' then (-1, pos + 1)
    else if cs.getD pos ' ' = '+' then (1, pos + 1)
    else (1, pos)
  let (v, count, pos2) := takeDigits cs pos1
  if count = 0 then .error Err.ERROR_LINE_NON_PARSABLE
  else .ok (sign * (v : Int), pos2)

/-- Modelled from the spec: `morphio::StringToNumber::toFloat` (declared in a
header that is not under `src/`); per spec sections 4.1 and 6.2 it parses a
signed decimal literal with optional fractional part and optional scientific
exponent, and a parse failure is fatal with `ERROR_LINE_NON_PARSABLE`. -/
def stn_toFloat (cs : List Char) (pos : Nat) : Except Err (ℚ × Nat) :=
  let (sign, pos1) : ℚ × Nat :=
    if cs.getD pos ' ' = '-' then (-1, pos + 1)
    else if cs.getD pos ' ' = '+' then (1, pos + 1)
    else (1, pos)
  let (ip, nInt, pos2) := takeDigits cs pos1
  let (fp, nFrac, pos3) :=
    if cs.getD pos2 ' ' = '.' then takeDigits cs (pos2 + 1) else (0, 0, pos2)
  if nInt = 0 ∧ nFrac = 0 then .error Err.ERROR_LINE_NON_PARSABLE
  else
    let mantissa : ℚ := (ip : ℚ) + (fp : ℚ) / ((10 : ℚ) ^ nFrac)
    let (expVal, pos4) : Int × Nat :=
      if cs.getD pos3 ' ' = 'e' ∨ cs.getD pos3 ' ' = 'E' then
        let (esign, posE) : Int × Nat :=
          if cs.getD (pos3 + 1) ' ' = '-' then (-1, pos3 + 2)
          else if cs.getD (pos3 + 1) ' ' = '+' then (1, pos3 + 2)
          else (1, pos3 + 1)
        let (ev, nE, posE2) := takeDigits cs posE
        if nE = 0 then (0, pos3) else (esign * (ev : Int), posE2)
      else (0, pos3)
    let scaled : ℚ :=
      if 0 ≤ expVal then mantissa * (10 : ℚ) ^ expVal.toNat
      else mantissa / ((10 : ℚ) ^ (-expVal).toNat)
    .ok (sign * scaled, pos4)

/-- `SWCTokenizer::read_int`: returns the value, the new cursor, and the new
line counter. -/
def read_int (cs : List Char) (pos line : Nat) : Except Err (Int × Nat × Nat) := do
  let (pos1, line1) ← advance_to_number cs pos line
  let (v, pos2) ← stn_toInt cs pos1
  return (v, pos2, line1)

/-- `SWCTokenizer::read_float`. -/
def read_float (cs : List Char) (pos line : Nat) : Except Err (ℚ × Nat × Nat) := do
  let (pos1, line1) ← advance_to_number cs pos line
  let (v, pos2) ← stn_toFloat cs pos1
  return (v, pos2, line1)

/-- Wrap of `static_cast<SectionType>` (underlying `int`, 32 bits). -/
def toInt32 (n : Int) : Int := (n + 2 ^ 31) % 2 ^ 32 - 2 ^ 31

/-- The record-reading loop of `details::readSamples` (source lines 138-169). -/
def readSamplesLoop (cs : List Char) :
    Nat → Nat → Nat → List Sample → Except Err (List Sample)
  | 0, _, _, _ => .error .fuelExhausted
  | fuel + 1, pos, line, acc =>
    if done cs pos then .ok acc
    else do
      let lineNumber := line
      let (id, pos, line) ← read_int cs pos line
      if id < 0 then throw Err.ERROR_NEGATIVE_ID
      let sid := id.toNat % UINT_MOD
      let (ty, pos, line) ← read_int cs pos line
      let (x, pos, line) ← read_float cs pos line
      let (y, pos, line) ← read_float cs pos line
      let (z, pos, line) ← read_float cs pos line
      let (radius, pos, line) ← read_float cs pos line
      let (pid, pos, line) ← read_int cs pos line
      if pid < SWC_UNDEFINED_PARENT then throw Err.ERROR_NEGATIVE_ID
      let parentId := if pid = SWC_UNDEFINED_PARENT then SWC_ROOT else pid.toNat % UINT_MOD
      let (pos, line, foundNewline) ← consume_line_and_trailing_comments cs (cs.length + 1) pos line
      if foundNewline = false then throw Err.ERROR_LINE_NON_PARSABLE
      readSamplesLoop cs fuel pos line
        (acc ++ [⟨sid, toInt32 ty, (x, y, z), 2 * radius, parentId, lineNumber⟩])

/-- `details::readSamples` (source lines 130-171). -/
def readSamples (cs : List Char) : Except Err (List Sample) := do
  let (pos, line, _) ← consume_line_and_trailing_comments cs (cs.length + 1) 0 1
  readSamplesLoop cs (cs.length + 1) pos line []

/-! ### Soma and builder data (`morphio::mut` collaborators, as used here) -/

/-- The four soma shape variants. -/
inductive SomaType where
  | UNDEFINED
  | SINGLE_POINT
  | NEUROMORPHO_THREE_POINT_CYLINDERS
  | CYLINDERS
deriving Repr, DecidableEq

/-- The soma of the mutable morphology: variant plus parallel point and
diameter arrays. -/
structure Soma where
  type : SomaType
  points : List Point
  diameters : List ℚ
deriving Repr, DecidableEq

/-- One emitted section: parallel point/diameter arrays, the section type, and
the parent section's index in the builder's section list (`none` for a root
section). -/
structure Sec where
  points : List Point
  diameters : List ℚ
  type : Int
  parent : Option Nat
deriving Repr, DecidableEq

/-- The value produced by the builder: the soma and the emitted sections in
creation order. -/
structure Properties where
  soma : Soma
  sections : List Sec
deriving Repr, DecidableEq

/-! ### Validator / indexer: the first loop of `SWCBuilder::buildSWC`
(source lines 305-338) -/

/-- State accumulated by the validation pass. -/
structure State1 where
  samples_ : List (Nat × Sample)
  children_ : List (Nat × List Nat)
  soma_samples : List Sample
  root_samples : List Sample
  warnings : List Warning
deriving Repr, DecidableEq

/-- One iteration of the validation loop for `sample` (source lines 305-338).
`allSamples` is the flat vector `samples`, read (by index `sample.id`) only to
build the `ERROR_REPEATED_ID` diagnostic. -/
def step1 (allSamples : List Sample) (st : State1) (s : Sample) : Except Err State1 :=
  let w1 := st.warnings ++ (if s.diameter < epsilon then [Warning.ZERO_DIAMETER] else [])
  if s.parentId = s.id then .error Err.ERROR_SELF_PARENT
  else if SECTION_OUT_OF_RANGE_START ≤ s.type ∨ s.type ≤ 0 then
    .error Err.ERROR_UNSUPPORTED_SECTION_TYPE
  else
    let w2 := w1 ++ (if s.parentId = SWC_ROOT ∧ s.type ≠ SECTION_SOMA then
      [Warning.DISCONNECTED_NEURITE] else [])
    let soma' := if s.type = SECTION_SOMA then st.soma_samples ++ [s] else st.soma_samples
    let root' := if s.parentId = SWC_ROOT ∨ s.type = SECTION_SOMA then
      st.root_samples ++ [s] else st.root_samples
    if containsA st.samples_ s.id then .error (Err.ERROR_REPEATED_ID (allSamples.get? s.id))
    else .ok { samples_ := insertSorted st.samples_ s.id s,
               children_ := childAppend st.children_ s.parentId s.id,
               soma_samples := soma', root_samples := root', warnings := w2 }

/-- The validation loop over the remaining samples. -/
def pass1Aux (allSamples : List Sample) : List Sample → State1 → Except Err State1
  | [], st => .ok st
  | s :: rest, st =>
    match step1 allSamples st s with
    | .error e => .error e
    | .ok st' => pass1Aux allSamples rest st'

/-- The whole validation pass. -/
def pass1 (samples : List Sample) : Except Err State1 :=
  pass1Aux samples samples ⟨[], [], [], [], []⟩

/-- The second validation sub-pass (source lines 342-346): every parent other
than `SWC_ROOT` must be present in `samples_`. -/
def missingParentPass (samplesMap : List (Nat × Sample)) : List Sample → Except Err Unit
  | [] => .ok ()
  | s :: rest =>
    if s.parentId ≠ SWC_ROOT ∧ containsA samplesMap s.parentId = false then
      .error Err.ERROR_MISSING_PARENT
    else missingParentPass samplesMap rest

/-! ### Soma classifier (`SWCBuilder::build_soma`, source lines 231-299) -/

/-- `SWCBuilder::_checkNeuromorph3PointSoma` (source lines 200-229): the
condition under which the `SOMA_NON_CONFORM` warning is emitted. -/
def checkNeuromorph3PointSoma (center child1 child2 : Sample) : Bool :=
  let x := center.point.1
  let z := center.point.2.2
  let d := center.diameter
  let r := center.diameter / 2
  let y := center.point.2.1
  (decide (child1.point.1 ≠ x) || decide (child2.point.1 ≠ x) ||
   decide (child1.point.2.1 ≠ y - r) || decide (child2.point.2.1 ≠ y + r) ||
   decide (child1.point.2.2 ≠ z) || decide (child2.point.2.2 ≠ z) ||
   decide (child1.diameter ≠ d) || decide (child2.diameter ≠ d)) &&
  decide (|child1.diameter - d| < epsilon) &&
  decide (|child2.diameter - d| < epsilon) &&
  decide (|child1.point.1 - x| < epsilon) &&
  decide (|child2.point.1 - x| < epsilon) &&
  decide (|child1.point.2.2 - z| < epsilon) &&
  decide (|child2.point.2.2 - z| < epsilon)

/-- `children_.count(id) == 0 ? 0 : children_.at(id).size()`. -/
def childCount (children_ : List (Nat × List Nat)) (id : Nat) : Nat :=
  match lookupA children_ id with
  | none => 0
  | some l => l.length

/-- The per-sample loop of the `SOMA_CYLINDERS` branch of `build_soma`
(source lines 271-294): accumulates `parent_count` and the point and diameter
arrays, enforcing the soma-parent, missing-parent and soma-bifurcation
checks.  `samples_[id]` inside the bifurcation scan is
`unordered_map::operator[]`, which default-constructs on a missing key. -/
def buildSomaCylindersLoop (samples_ : List (Nat × Sample))
    (children_ : List (Nat × List Nat)) :
    List Sample → Nat → List Point → List ℚ → Except Err (Nat × List Point × List ℚ)
  | [], pc, ps, ds => .ok (pc, ps, ds)
  | s :: rest, pc, ps, ds =>
    let pcStep : Except Err Nat :=
      if s.parentId = SWC_ROOT then .ok (pc + 1)
      else
        match lookupA samples_ s.parentId with
        | none => .error Err.ERROR_MISSING_PARENT
        | some p =>
          if p.type ≠ SECTION_SOMA then .error Err.ERROR_SOMA_WITH_NEURITE_PARENT
          else .ok pc
    match pcStep with
    | .error e => .error e
    | .ok pc' =>
      let bifCheck : Except Err Unit :=
        if containsA children_ s.id ∧ ((lookupA children_ s.id).getD []).length > 1 then
          let somaBifurcations :=
            (((lookupA children_ s.id).getD []).map
              (fun cid => (lookupA samples_ cid).getD default)).filter
              (fun c => c.type = SECTION_SOMA)
          if somaBifurcations.length > 1 then .error Err.ERROR_SOMA_BIFURCATION
          else .ok ()
        else .ok ()
      match bifCheck with
      | .error e => .error e
      | .ok _ =>
        buildSomaCylindersLoop samples_ children_ rest pc'
          (ps ++ [s.point]) (ds ++ [s.diameter])

/-- The `SOMA_CYLINDERS` tail of `build_soma` (source lines 264-298),
including the post-loop `ERROR_MULTIPLE_SOMATA` check. -/
def buildSomaCylinders (samples_ : List (Nat × Sample))
    (children_ : List (Nat × List Nat)) (soma_samples : List Sample) :
    Except Err (Soma × List Warning) :=
  match buildSomaCylindersLoop samples_ children_ soma_samples 0 [] [] with
  | .error e => .error e
  | .ok (pc, ps, ds) =>
    if pc > 1 then .error Err.ERROR_MULTIPLE_SOMATA
    else .ok (⟨SomaType.CYLINDERS, ps, ds⟩, [])

/-- `SWCBuilder::build_soma` (source lines 231-299).  Returns the soma and the
warnings emitted while building it. -/
def build_soma (samples_ : List (Nat × Sample)) (children_ : List (Nat × List Nat)) :
    List Sample → Except Err (Soma × List Warning)
  | [] => .ok (⟨SomaType.UNDEFINED, [], []⟩, [])
  | [sample] =>
    if sample.parentId = SWC_ROOT then
      .ok (⟨SomaType.SINGLE_POINT, [sample.point], [sample.diameter]⟩, [])
    else
      match lookupA samples_ sample.parentId with
      | none => .error Err.fault
      | some p =>
        if p.type ≠ SECTION_SOMA then .error Err.ERROR_SOMA_WITH_NEURITE_PARENT
        else .ok (⟨SomaType.SINGLE_POINT, [sample.point], [sample.diameter]⟩, [])
  | center :: child1 :: child2 :: [] =>
    if center.id = child1.parentId ∧ center.id = child2.parentId then
      .ok (⟨SomaType.NEUROMORPHO_THREE_POINT_CYLINDERS,
            [center.point, child1.point, child2.point],
            [center.diameter, child1.diameter, child2.diameter]⟩,
           if checkNeuromorph3PointSoma center child1 child2 then
             [Warning.SOMA_NON_CONFORM] else [])
    else buildSomaCylinders samples_ children_ (center :: child1 :: child2 :: [])
  | soma_samples => buildSomaCylinders samples_ children_ soma_samples

/-! ### Tree assembler (`SWCBuilder::assembleSections`, source lines 392-466,
and the root loop of `buildSWC`, source lines 353-389) -/

/-- One pending `assembleSections` invocation. -/
structure Job where
  id : Nat
  parentId : Nat
  startPoint : Point
  startDiameter : ℚ
  isRoot : Bool
deriving Repr, DecidableEq

/-- The chain-collapsing `while (children_count == 1)` loop of
`assembleSections` (source lines 429-439): accumulates points and diameters
and returns the final sample id together with its child count. -/
def chainLoop (samples_ : List (Nat × Sample)) (children_ : List (Nat × List Nat)) :
    Nat → Nat → List Point → List ℚ → Except Err (Nat × List Point × List ℚ × Nat)
  | 0, _, _, _ => .error .fuelExhausted
  | fuel + 1, id, ps, ds =>
    let cc := childCount children_ id
    if cc = 1 then
      match lookupA samples_ id with
      | none => .error Err.fault
      | some sample =>
        let childId := ((lookupA children_ id).getD []).getD 0 0
        match lookupA samples_ childId with
        | none => .error Err.fault
        | some child =>
          if sample.type ≠ child.type then .ok (id, ps, ds, cc)
          else chainLoop samples_ children_ fuel childId
            (ps ++ [sample.point]) (ds ++ [sample.diameter])
    else .ok (id, ps, ds, cc)

/-- `SWCBuilder::assembleSections`, as a worklist whose head is the current
invocation; child invocations are prepended, preserving the source's
depth-first order.  Threads the `declared_to_swc` map and the builder's
section list; returns both. -/
def assembleSections (samples_ : List (Nat × Sample))
    (children_ : List (Nat × List Nat)) (chainFuel : Nat) :
    Nat → List Job → List (Nat × Nat) → List Sec →
    Except Err (List Sec × List (Nat × Nat))
  | 0, _, _, _ => .error .fuelExhausted
  | _ + 1, [], declared, sections => .ok (sections, declared)
  | fuel + 1, job :: rest, declared, sections =>
    match lookupA samples_ job.id with
    | none => .error Err.fault
    | some sample =>
      -- duplicate fork point (source lines 422-426)
      let dup := job.isRoot = false ∧ sample.point ≠ job.startPoint
      let ps0 := if dup then [job.startPoint] else []
      let ds0 := if dup then [job.startDiameter] else []
      match chainLoop samples_ children_ chainFuel job.id ps0 ds0 with
      | .error e => .error e
      | .ok (id', ps1, ds1, cc) =>
        match lookupA samples_ id' with
        | none => .error Err.fault
        | some sample' =>
          let ps := ps1 ++ [sample'.point]
          let ds := ds1 ++ [sample'.diameter]
          let parentIdx : Except Err (Option Nat) :=
            if job.isRoot then .ok none
            else
              match lookupA declared job.parentId with
              | none => .error Err.fault
              | some j => .ok (some j)
          match parentIdx with
          | .error e => .error e
          | .ok pidx =>
            let newIdx := sections.length
            let sections' := sections ++ [⟨ps, ds, sample'.type, pidx⟩]
            let declared' := insertReplace declared id' newIdx
            if cc = 0 then
              assembleSections samples_ children_ chainFuel fuel rest declared' sections'
            else
              let lastP := ps.getLastD (0, 0, 0)
              let lastD := ds.getLastD 0
              if cc = 1 then
                let childId := ((lookupA children_ id').getD []).getD 0 0
                assembleSections samples_ children_ chainFuel fuel
                  (⟨childId, id', lastP, lastD, false⟩ :: rest) declared' sections'
              else
                let childJobs := ((lookupA children_ id').getD []).map
                  (fun c => (⟨c, id', lastP, lastD, false⟩ : Job))
                assembleSections samples_ children_ chainFuel fuel
                  (childJobs ++ rest) declared' sections'

/-- The inner `for (unsigned int child_id : children_.at(root_sample.id))`
loop of `buildSWC` (source lines 367-388), including the `break` after a
neurite root is assembled. -/
def rootChildLoop (samples_ : List (Nat × Sample))
    (children_ : List (Nat × List Nat)) (soma : Soma) (fuel : Nat) (root : Sample) :
    List Nat → List (Nat × Nat) → List Sec →
    Except Err (List Sec × List (Nat × Nat))
  | [], declared, sections => .ok (sections, declared)
  | childId :: rest, declared, sections =>
    match lookupA samples_ childId with
    | none => .error Err.fault
    | some child =>
      if child.type = SECTION_SOMA then
        rootChildLoop samples_ children_ soma fuel root rest declared sections
      else if root.type = SECTION_SOMA then
        match soma.points, soma.diameters with
        | p0 :: _, d0 :: _ =>
          match assembleSections samples_ children_ fuel fuel
            [⟨childId, root.id, p0, d0, true⟩] declared sections with
          | .error e => .error e
          | .ok (sections', declared') =>
            rootChildLoop samples_ children_ soma fuel root rest declared' sections'
        | _, _ => .error Err.fault
      else
        -- neurite at the root: assemble once, then break out of the loop
        assembleSections samples_ children_ fuel fuel
          [⟨root.id, SWC_ROOT, root.point, root.diameter, true⟩] declared sections

/-- The `for (const Sample& root_sample : root_samples)` loop of `buildSWC`
(source lines 353-389). -/
def rootLoop (samples_ : List (Nat × Sample)) (children_ : List (Nat × List Nat))
    (soma : Soma) (fuel : Nat) :
    List Sample → List (Nat × Nat) → List Sec → List Warning →
    Except Err (List Sec × List (Nat × Nat) × List Warning)
  | [], declared, sections, warnings => .ok (sections, declared, warnings)
  | root :: rest, declared, sections, warnings =>
    if containsA children_ root.id = false then
      rootLoop samples_ children_ soma fuel rest declared sections warnings
    else
      let warnings' := warnings ++
        (if soma.type = SomaType.NEUROMORPHO_THREE_POINT_CYLINDERS ∧
            root.type = SECTION_SOMA ∧ root.id ≠ 1 then
          [Warning.WRONG_ROOT_POINT] else [])
      match rootChildLoop samples_ children_ soma fuel root
        ((lookupA children_ root.id).getD []) declared sections with
      | .error e => .error e
      | .ok (sections', declared') =>
        rootLoop samples_ children_ soma fuel rest declared' sections' warnings'

/-- `SWCBuilder::buildSWC` (source lines 301-390): validation pass, missing
parent pass, soma classification, and tree assembly.  Returns the built
properties and all emitted warnings. -/
def buildSWC (samples : List Sample) : Except Err (Properties × List Warning) :=
  match pass1 samples with
  | .error e => .error e
  | .ok st =>
    match missingParentPass st.samples_ samples with
    | .error e => .error e
    | .ok _ =>
      match build_soma st.samples_ st.children_ st.soma_samples with
      | .error e => .error e
      | .ok (soma, w1) =>
        match rootLoop st.samples_ st.children_ soma (samples.length + 1)
          st.root_samples [] [] [] with
        | .error e => .error e
        | .ok (sections, _, w2) =>
          .ok (⟨soma, sections⟩, st.warnings ++ w1 ++ w2)

/-- `morphio::readers::swc::load` restricted to the core: read the samples,
then build.  (Path handling, `applyModifiers` and the immutable value type are
out-of-scope collaborators.) -/
def load (contents : String) : Except Err (Properties × List Warning) :=
  match readSamples contents.data with
  | .error e => .error e
  | .ok samples => buildSWC samples

/-! ### Definitions following the spec's words (for refinement statements) -/

/-- Spec section 4.4, stated from the spec's words: the soma variant selected
for a given `soma_samples` list — empty → `UNDEFINED`, one → `SINGLE_POINT`,
three with samples two and three both listing sample one as their parent →
`NEUROMORPHO_THREE_POINT_CYLINDERS`, otherwise `CYLINDERS`. -/
def classifySomaSpec : List Sample → SomaType
  | [] => SomaType.UNDEFINED
  | [_] => SomaType.SINGLE_POINT
  | [c, a, b] =>
    if a.parentId = c.id ∧ b.parentId = c.id then
      SomaType.NEUROMORPHO_THREE_POINT_CYLINDERS
    else SomaType.CYLINDERS
  | _ => SomaType.CYLINDERS

/-- Spec section 4.4: the canonical neuromorpho three-point arrangement — with
center `(x, y, z)`, diameter `d`, `r = d/2`, the children are exactly at
`(x, y−r, z, d)` and `(x, y+r, z, d)` respectively. -/
def canonical3Point (center child1 child2 : Sample) : Prop :=
  child1.point.1 = center.point.1 ∧
  child2.point.1 = center.point.1 ∧
  child1.point.2.1 = center.point.2.1 - center.diameter / 2 ∧
  child2.point.2.1 = center.point.2.1 + center.diameter / 2 ∧
  child1.point.2.2 = center.point.2.2 ∧
  child2.point.2.2 = center.point.2.2 ∧
  child1.diameter = center.diameter ∧
  child2.diameter = center.diameter

/-- Spec section 4.4: each child's x coordinate, z coordinate and diameter
differ from the center's by less than `epsilon`. -/
def close3Point (center child1 child2 : Sample) : Prop :=
  |child1.diameter - center.diameter| < epsilon ∧
  |child2.diameter - center.diameter| < epsilon ∧
  |child1.point.1 - center.point.1| < epsilon ∧
  |child2.point.1 - center.point.1| < epsilon ∧
  |child1.point.2.2 - center.point.2.2| < epsilon ∧
  |child2.point.2.2 - center.point.2.2| < epsilon

/-- Fork-duplication invariant of an emitted section list: every section is
nonempty, and every non-root section's first point equals the last point of
the parent section it was appended to. -/
def sectionsInv (sections : List Sec) : Prop :=
  ∀ i sec, sections.get? i = some sec →
    sec.points ≠ [] ∧
    ∀ j, sec.parent = some j →
      ∃ psec, sections.get? j = some psec ∧
        sec.points.head? = psec.points.getLast?

/-! ### Concrete scenario inputs -/

/-- Scenario S4: soma plus an unbranched axon chain `2 ← 3 ← 4`. -/
def s4text : String := "1 1 0 0 0 1 -1\n2 2 0 0 1 1 1\n3 2 0 0 2 1 2\n4 2 0 0 3 1 3\n"

/-- Scenario S6-style file in which the child line (id 3, parent 2) precedes
its parent's line (id 2). -/
def fwdRefText : String := "1 1 0 0 0 1 -1\n3 1 1 0 0 1 2\n2 1 2 0 0 1 1\n"

/-- `fwdRefText` with the lines reordered so the parent's line precedes the
child's line. -/
def fwdRefReordered : String := "1 1 0 0 0 1 -1\n2 1 2 0 0 1 1\n3 1 1 0 0 1 2\n"

/-- A file whose first line carries only four of the seven fields; the record
is completed from the second line. -/
def splitLineText : String := "1 1 0 0\n0 1 -1\n"

/-- A record with textual parent `-1` and id `4294967293 = 0xFFFFFFFD`, the
value of the in-memory no-parent sentinel. -/
def selfParentCollisionText : String := "4294967293 1 0 0 0 1 -1\n"

/-- A record whose non-negative textual parent `4294967293` coincides with the
no-parent sentinel and is not the id of any record. -/
def missingParentCollisionText : String := "1 2 0 0 0 1 4294967293\n"

/-- Scenario S2's canonical three-point soma samples. -/
def s2center : Sample := ⟨1, 1, (0, 0, 0), 2, SWC_ROOT, 1⟩

/-- First child of the S2 canonical soma, at `(x, y−r, z)`. -/
def s2child1 : Sample := ⟨2, 1, (0, -1, 0), 2, 1, 2⟩

/-- Second child of the S2 canonical soma, at `(x, y+r, z)`. -/
def s2child2 : Sample := ⟨3, 1, (0, 1, 0), 2, 1, 3⟩

/-- Scenario S5: soma, a chain 2-3, and a fork at sample 3 into children 4
and 5. -/
def s5samples : List Sample :=
  [⟨1, 1, (0, 0, 0), 2, SWC_ROOT, 1⟩, ⟨2, 2, (0, 0, 1), 2, 1, 2⟩,
   ⟨3, 2, (0, 0, 2), 2, 2, 3⟩, ⟨4, 2, (0, 0, 3), 2, 3, 4⟩, ⟨5, 2, (0, 1, 2), 2, 3, 5⟩]

/-- The properties the assembler emits for scenario S5. -/
def s5props : Properties :=
  ⟨⟨SomaType.SINGLE_POINT, [(0, 0, 0)], [2]⟩,
   [⟨[(0, 0, 1), (0, 0, 2)], [2, 2], 2, none⟩,
    ⟨[(0, 0, 2), (0, 0, 3)], [2, 2], 2, some 0⟩,
    ⟨[(0, 0, 2), (0, 1, 2)], [2, 2], 2, some 0⟩]⟩

/-! ### Definitions for the order-independence and fork analyses -/

/-- Invariant of the `declared_to_swc` map: every declared id maps to an
existing nonempty section whose last point is that sample's point. -/
def declaredInv (samples_ : List (Nat × Sample)) (declared : List (Nat × Nat))
    (sections : List Sec) : Prop :=
  ∀ k idx, lookupA declared k = some idx →
    ∃ sk sec, lookupA samples_ k = some sk ∧ sections.get? idx = some sec ∧
      sec.points ≠ [] ∧ sec.points.getLast? = some sk.point

/-- Invariant of pending jobs: a non-root job starts at its parent key's
sample point. -/
def jobsInv (samples_ : List (Nat × Sample)) (jobs : List Job) : Prop :=
  ∀ job ∈ jobs, job.isRoot = false →
    ∃ sp, lookupA samples_ job.parentId = some sp ∧ job.startPoint = sp.point

/-- Equality of validation states up to the warning log. -/
def coreEq (a b : State1) : Prop :=
  a.samples_ = b.samples_ ∧ a.children_ = b.children_ ∧
  a.soma_samples = b.soma_samples ∧ a.root_samples = b.root_samples

/-! ### C9: `skip_to` (code bug) -/

/-- C9: the claim says that when byte `c` does not occur at or after the
cursor, the cursor ends at the end of the buffer.  The code's not-found branch
stores `contents_.size()` but is immediately overwritten by the unconditional
`pos_ = pos;`, leaving the cursor at `npos = 2^64 − 1`, which is not the end
of the buffer.  When the byte does occur, the cursor lands on it without
consuming it, as claimed. -/
theorem C9_skip_to_bug :
    skip_to "abc".data 0 'x' = NPOS ∧
    ("abc".data).length = 3 ∧
    NPOS ≠ 3 ∧
    skip_to "a#b\nc".data 1 '\n' = 3 ∧
    ("a#b\nc".data).getD 3 ' ' = '\n' := by
  refine ⟨by decide, by decide, by decide, by decide, by decide⟩

/-! ### C10: `ERROR_REPEATED_ID` diagnostic lookup (code bug) -/

/-- C10: the diagnostic for a repeated id is built from `samples[sample.id]`,
the flat source-ordered vector indexed by the duplicated id value.  For a file
whose two records both carry id 5, the branch is reached with index 5 on a
vector of length 2: the Option-returning lookup yields `none` (the C++ access
is out of bounds), refuting the claim that the index is always within
bounds. -/
theorem C10_repeated_id_oob :
    buildSWC [⟨5, 1, (0, 0, 0), 2, SWC_ROOT, 1⟩, ⟨5, 1, (0, 0, 0), 2, SWC_ROOT, 2⟩] =
      .error (Err.ERROR_REPEATED_ID none) ∧
    ([⟨5, 1, (0, 0, 0), 2, SWC_ROOT, 1⟩, ⟨5, 1, (0, 0, 0), 2, SWC_ROOT, 2⟩] :
      List Sample).get? 5 = none :=
  ⟨by decide, by decide⟩

/-! ### C1: scenario S4 (corrected) -/

/-- C1 counterexample: on the S4 input the single emitted axon section has
three points, not four — the call that assembles a section attached to the
soma passes `is_root = true`, so the duplicate-start-point push (which the
source guards with `!is_root`) is skipped and no soma point is prepended. -/
theorem C1_counterexample :
    (load s4text).map (fun pr => pr.1.sections.map (fun sec => sec.points.length)) =
      .ok [3] ∧
    (load s4text).map (fun pr => pr.1.sections.map (fun sec => sec.points.length)) ≠
      .ok [4] := by
  refine ⟨by decide, by decide⟩

/-- C1 amended: the S4 input produces exactly one axon section whose points
are the points of samples 2, 3 and 4 in order (no duplicated soma point). -/
theorem C1_amended :
    load s4text = .ok
      (⟨⟨SomaType.SINGLE_POINT, [(0, 0, 0)], [2]⟩,
        [⟨[(0, 0, 1), (0, 0, 2), (0, 0, 3)], [2, 2, 2], 2, none⟩]⟩, []) := by decide

/-! ### C4: order independence (corrected) -/

/-- C4 counterexample: a file in which a (soma) child line precedes its parent
line loads successfully, and its reordered version also loads successfully,
but the two outputs are not identical: the soma points follow source order,
so they appear in different orders. -/
theorem C4_counterexample :
    (load fwdRefText).map Prod.fst =
      .ok ⟨⟨SomaType.CYLINDERS, [(0, 0, 0), (1, 0, 0), (2, 0, 0)], [2, 2, 2]⟩, []⟩ ∧
    (load fwdRefReordered).map Prod.fst =
      .ok ⟨⟨SomaType.CYLINDERS, [(0, 0, 0), (2, 0, 0), (1, 0, 0)], [2, 2, 2]⟩, []⟩ ∧
    (load fwdRefText).map Prod.fst ≠ (load fwdRefReordered).map Prod.fst := by
  refine ⟨by decide, by decide, by decide⟩

/-! ### C5: per-line record shape (corrected) -/

/-- C5 counterexample: an input whose first line holds only four numeric
fields is not rejected — the tokenizer consumes the newline between fields,
the record is completed from the second line, and the load succeeds. -/
theorem C5_counterexample :
    readSamples splitLineText.data = .ok [⟨1, 1, (0, 0, 0), 2, SWC_ROOT, 1⟩] ∧
    load splitLineText =
      .ok (⟨⟨SomaType.SINGLE_POINT, [(0, 0, 0)], [2]⟩, []⟩, []) :=
  ⟨by decide, by decide⟩

/-- C5 (amended): the reader does not enforce per-line shape for missing
fields - a line carrying fewer than seven fields is completed with fields
taken from the following line(s), because `advance_to_number` consumes
newlines between fields (the two-line `splitLineText` parses as a single
sample).  What is enforced, universally: (1) after a record's seven fields,
any further token before the newline (an eighth field) makes the read fail
with `ERROR_LINE_NON_PARSABLE`; (2) a record whose first field read fails
aborts the read with that error; (3) the field seeker fails with
`EARLY_END_OF_FILE` when it reaches the end of the input while seeking the
next field, and (4) with `ERROR_LINE_NON_PARSABLE` when the token it lands on
does not begin with a digit, a sign or a dot. -/
theorem C5_amended :
    (∀ (cs : List Char) (fuel pos line : Nat) (acc : List Sample)
      (i1 ty : Int) (x y z radius : ℚ) (pid : Int)
      (p1 l1 p2 l2 p3 l3 p4 l4 p5 l5 p6 l6 p7 l7 p8 l8 : Nat),
      done cs pos = false →
      read_int cs pos line = .ok (i1, p1, l1) → ¬i1 < 0 →
      read_int cs p1 l1 = .ok (ty, p2, l2) →
      read_float cs p2 l2 = .ok (x, p3, l3) →
      read_float cs p3 l3 = .ok (y, p4, l4) →
      read_float cs p4 l4 = .ok (z, p5, l5) →
      read_float cs p5 l5 = .ok (radius, p6, l6) →
      read_int cs p6 l6 = .ok (pid, p7, l7) → ¬pid < SWC_UNDEFINED_PARENT →
      consume_line_and_trailing_comments cs (cs.length + 1) p7 l7 =
        .ok (p8, l8, false) →
      readSamplesLoop cs (fuel + 1) pos line acc =
        .error Err.ERROR_LINE_NON_PARSABLE) ∧
    (∀ (cs : List Char) (fuel pos line : Nat) (acc : List Sample) (e : Err),
      done cs pos = false → read_int cs pos line = .error e →
      readSamplesLoop cs (fuel + 1) pos line acc = .error e) ∧
    (∀ (cs : List Char) (pos line p l : Nat),
      advanceToNumberLoop cs (cs.length + 1) pos line = .ok (p, l) →
      done cs p = true →
      advance_to_number cs pos line = .error Err.EARLY_END_OF_FILE) ∧
    (∀ (cs : List Char) (pos line p l : Nat),
      advanceToNumberLoop cs (cs.length + 1) pos line = .ok (p, l) →
      done cs p = false →
      ((cs.getD p ' ').isDigit || cs.getD p ' ' = '-' || cs.getD p ' ' = '+' ||
        cs.getD p ' ' = '.') = false →
      advance_to_number cs pos line = .error Err.ERROR_LINE_NON_PARSABLE) ∧
    readSamples splitLineText.data = .ok [⟨1, 1, (0, 0, 0), 2, SWC_ROOT, 1⟩] ∧
    readSamples "1 1 0 0 0 1 -1\n".data = .ok [⟨1, 1, (0, 0, 0), 2, SWC_ROOT, 1⟩] := by
  refine ⟨?_, ?_, ?_, ?_, by decide, by decide⟩
  · intro cs fuel pos line acc i1 ty x y z radius pid
      p1 l1 p2 l2 p3 l3 p4 l4 p5 l5 p6 l6 p7 l7 p8 l8
      hd h1 hi1 h2 h3 h4 h5 h6 h7 hpid hterm
    simp [readSamplesLoop, hd, h1, hi1, h2, h3, h4, h5, h6, h7, hpid, hterm,
      bind, Except.bind, Except.instMonad, throw, throwThe, MonadExceptOf.throw,
      pure, Except.pure]
  · intro cs fuel pos line acc e hd h
    simp [readSamplesLoop, hd, h, bind, Except.bind, Except.instMonad, throw,
      throwThe, MonadExceptOf.throw, pure, Except.pure]
  · intro cs pos line p l h hdone
    simp [advance_to_number, h, hdone, bind, Except.bind, Except.instMonad,
      throw, throwThe, MonadExceptOf.throw, pure, Except.pure]
  · intro cs pos line p l h hdone hchar
    simp only [Bool.or_eq_false_iff, decide_eq_false_iff_not] at hchar
    simp [advance_to_number, h, hdone, bind, Except.bind, Except.instMonad,
      throw, throwThe, MonadExceptOf.throw, pure, Except.pure,
      hchar.1.1.1, hchar.1.1.2, hchar.1.2, hchar.2]
    simpa using hchar

/-- Witness for C5 at concrete inputs: an eighth field (`... -1 8`) fails
with `ERROR_LINE_NON_PARSABLE`; a leading non-numeric token aborts the read
with `ERROR_LINE_NON_PARSABLE`; seeking a field at end of input fails with
`EARLY_END_OF_FILE`; landing on a non-numeric token fails with
`ERROR_LINE_NON_PARSABLE`. -/
theorem C5_amended_witness :
    readSamplesLoop "1 1 0 0 0 1 -1 8\n".data 1 0 1 [] =
      .error Err.ERROR_LINE_NON_PARSABLE ∧
    readSamplesLoop "a 1\n".data 1 0 1 [] = .error Err.ERROR_LINE_NON_PARSABLE ∧
    advance_to_number "\n".data 0 1 = .error Err.EARLY_END_OF_FILE ∧
    advance_to_number "a 1\n".data 0 1 = .error Err.ERROR_LINE_NON_PARSABLE :=
  ⟨C5_amended.1 "1 1 0 0 0 1 -1 8\n".data 0 0 1 [] 1 1 0 0 0 1 (-1)
      1 1 3 1 5 1 7 1 9 1 11 1 14 1 15 1
      (by decide) (by decide) (by decide) (by decide) (by decide) (by decide)
      (by decide) (by decide) (by decide) (by decide) (by decide),
    C5_amended.2.1 "a 1\n".data 0 0 1 [] Err.ERROR_LINE_NON_PARSABLE
      (by decide) (by decide),
    C5_amended.2.2.1 "\n".data 0 1 1 2 (by decide) (by decide),
    C5_amended.2.2.2.1 "a 1\n".data 0 1 0 1 (by decide) (by decide) (by decide)⟩

/-! ### C6: self-parent detection (corrected) -/

/-- C6 counterexample: the record `4294967293 1 0 0 0 1 -1` has parent field
`-1`, which is stored as the sentinel `SWC_ROOT = 4294967293`; since its id is
also `4294967293`, the stored comparison `parentId == id` fires and the load
fails with `ERROR_SELF_PARENT` — refuting "a record whose parent field is -1
is never reported as a self-parent, whatever its id value is". -/
theorem C6_counterexample :
    readSamples selfParentCollisionText.data =
      .ok [⟨4294967293, 1, (0, 0, 0), 2, SWC_ROOT, 1⟩] ∧
    SWC_ROOT = 4294967293 ∧
    load selfParentCollisionText = .error Err.ERROR_SELF_PARENT :=
  ⟨by decide, by decide, by decide⟩

/-! ### C7: missing parents (corrected) -/

/-- C7 counterexample: the record `1 2 0 0 0 1 4294967293` has a non-negative
parent field that is not the id of any record, yet the load succeeds — the
stored parent equals the sentinel `SWC_ROOT = 0xFFFFFFFD`, so the record is
treated as parentless (with a `DISCONNECTED_NEURITE` warning) instead of
failing with `ERROR_MISSING_PARENT`. -/
theorem C7_counterexample :
    readSamples missingParentCollisionText.data =
      .ok [⟨1, 2, (0, 0, 0), 2, SWC_ROOT, 1⟩] ∧
    load missingParentCollisionText =
      .ok (⟨⟨SomaType.UNDEFINED, [], []⟩, []⟩, [Warning.DISCONNECTED_NEURITE]) :=
  ⟨by decide, by decide⟩

/-! ### Association-list lemmas -/

theorem lookupA_insertSorted {α : Type} (m : List (Nat × α)) (k : Nat) (v : α)
    (hfresh : lookupA m k = none) (k' : Nat) :
    lookupA (insertSorted m k v) k' = if k' = k then some v else lookupA m k' := by
  induction m with
  | nil => simp [insertSorted, lookupA]
  | cons p rest ih =>
    obtain ⟨k0, v0⟩ := p
    simp only [lookupA] at hfresh
    by_cases hk : k = k0
    · simp [hk] at hfresh
    · rw [if_neg hk] at hfresh
      simp only [insertSorted]
      by_cases hlt : k < k0
      · rw [if_pos hlt]
        simp only [lookupA]
      · rw [if_neg hlt]
        simp only [lookupA]
        by_cases hk' : k' = k0
        · have hk'k : k' ≠ k := fun h => hk (by rw [← h, hk'])
          rw [if_pos hk', if_neg hk'k, if_pos hk']
        · rw [if_neg hk', ih hfresh, if_neg hk']

theorem lookupA_isSome_insertSorted {α : Type} (m : List (Nat × α)) (k : Nat) (v : α)
    (hfresh : lookupA m k = none) (k' : Nat) :
    (lookupA (insertSorted m k v) k').isSome = true ↔
      k' = k ∨ (lookupA m k').isSome = true := by
  rw [lookupA_insertSorted m k v hfresh k']
  split
  · simp [*]
  · simp [*]

/-! ### Inversion and error-shape lemmas for the validation pass -/

/-- Inversion for a successful `step1`. -/
theorem step1_ok_iff (all : List Sample) (st : State1) (s : Sample) (st' : State1) :
    step1 all st s = .ok st' ↔
      s.parentId ≠ s.id ∧
      ¬(SECTION_OUT_OF_RANGE_START ≤ s.type ∨ s.type ≤ 0) ∧
      containsA st.samples_ s.id = false ∧
      st' = { samples_ := insertSorted st.samples_ s.id s,
              children_ := childAppend st.children_ s.parentId s.id,
              soma_samples :=
                if s.type = SECTION_SOMA then st.soma_samples ++ [s] else st.soma_samples,
              root_samples :=
                if s.parentId = SWC_ROOT ∨ s.type = SECTION_SOMA then
                  st.root_samples ++ [s] else st.root_samples,
              warnings :=
                (st.warnings ++ (if s.diameter < epsilon then [Warning.ZERO_DIAMETER] else [])) ++
                (if s.parentId = SWC_ROOT ∧ s.type ≠ SECTION_SOMA then
                  [Warning.DISCONNECTED_NEURITE] else []) } := by
  unfold step1
  by_cases h1 : s.parentId = s.id
  · simp [h1]
  · by_cases h2 : SECTION_OUT_OF_RANGE_START ≤ s.type ∨ s.type ≤ 0
    · simp [h1, h2]
    · by_cases h3 : containsA st.samples_ s.id = true
      · simp [h1, h2, h3]
      · rw [if_neg h1, if_neg h2, if_neg h3]
        simp only [Except.ok.injEq]
        constructor
        · intro h
          exact ⟨h1, h2, by simpa using h3, h.symm⟩
        · intro h
          exact h.2.2.2.symm

/-- `step1` reports `ERROR_SELF_PARENT` exactly for a stored self-parent. -/
theorem step1_self_iff (all : List Sample) (st : State1) (s : Sample) :
    step1 all st s = .error Err.ERROR_SELF_PARENT ↔ s.parentId = s.id := by
  unfold step1
  by_cases h1 : s.parentId = s.id
  · simp [h1]
  · rw [if_neg h1]
    by_cases h2 : SECTION_OUT_OF_RANGE_START ≤ s.type ∨ s.type ≤ 0
    · simp [h1, h2]
    · rw [if_neg h2]
      by_cases h3 : containsA st.samples_ s.id = true
      · simp [h1, h2, h3]
      · simp [h1, h2, h3]

/-- If the validation loop reports `ERROR_SELF_PARENT`, some sample in the
remaining list has a stored self-parent. -/
theorem pass1Aux_self_of_error (all : List Sample) :
    ∀ (l : List Sample) (st : State1),
      pass1Aux all l st = .error Err.ERROR_SELF_PARENT →
      ∃ s ∈ l, s.parentId = s.id := by
  intro l
  induction l with
  | nil => intro st h; simp [pass1Aux] at h
  | cons s rest ih =>
    intro st h
    cases heq : step1 all st s with
    | error e =>
      simp only [pass1Aux, heq, Except.error.injEq] at h
      rw [h] at heq
      exact ⟨s, List.mem_cons_self s rest, (step1_self_iff all st s).mp heq⟩
    | ok st1 =>
      simp only [pass1Aux, heq] at h
      obtain ⟨t, ht, hpt⟩ := ih st1 h
      exact ⟨t, List.mem_cons_of_mem s ht, hpt⟩

/-- If every sample in the remaining list has a valid type, a fresh id, and
pairwise-distinct ids, and some sample has a stored self-parent, the
validation loop reports `ERROR_SELF_PARENT`. -/
theorem pass1Aux_self_of_exists (all : List Sample) :
    ∀ (l : List Sample) (st : State1),
      (∀ s ∈ l, 0 < s.type ∧ s.type < SECTION_OUT_OF_RANGE_START) →
      (∀ s ∈ l, lookupA st.samples_ s.id = none) →
      l.Pairwise (fun a b => a.id ≠ b.id) →
      (∃ s ∈ l, s.parentId = s.id) →
      pass1Aux all l st = .error Err.ERROR_SELF_PARENT := by
  intro l
  induction l with
  | nil => intro st _ _ _ hex; simp at hex
  | cons s rest ih =>
    intro st htype hfresh hpair hex
    by_cases hs : s.parentId = s.id
    · have hstep : step1 all st s = .error Err.ERROR_SELF_PARENT :=
        (step1_self_iff all st s).mpr hs
      simp [pass1Aux, hstep]
    · have htyps := htype s (List.mem_cons_self s rest)
      have h2 : ¬(SECTION_OUT_OF_RANGE_START ≤ s.type ∨ s.type ≤ 0) := by
        push_neg
        omega
      have hfs := hfresh s (List.mem_cons_self s rest)
      have h3 : containsA st.samples_ s.id = false := by
        simp [containsA, hfs]
      rw [List.pairwise_cons] at hpair
      have hstep : step1 all st s = .ok
          { samples_ := insertSorted st.samples_ s.id s,
            children_ := childAppend st.children_ s.parentId s.id,
            soma_samples :=
              if s.type = SECTION_SOMA then st.soma_samples ++ [s] else st.soma_samples,
            root_samples :=
              if s.parentId = SWC_ROOT ∨ s.type = SECTION_SOMA then
                st.root_samples ++ [s] else st.root_samples,
            warnings :=
              (st.warnings ++ (if s.diameter < epsilon then [Warning.ZERO_DIAMETER] else [])) ++
              (if s.parentId = SWC_ROOT ∧ s.type ≠ SECTION_SOMA then
                [Warning.DISCONNECTED_NEURITE] else []) } :=
        (step1_ok_iff all st s _).mpr ⟨hs, h2, h3, rfl⟩
      simp only [pass1Aux, hstep]
      apply ih
      · intro t ht
        exact htype t (List.mem_cons_of_mem s ht)
      · intro t ht
        rw [lookupA_insertSorted st.samples_ s.id s hfs t.id,
          if_neg (fun h => hpair.1 t ht h.symm)]
        exact hfresh t (List.mem_cons_of_mem s ht)
      · exact hpair.2
      · rcases hex with ⟨t, htmem, htp⟩
        rcases List.mem_cons.mp htmem with h | h
        · exact absurd (h ▸ htp) hs
        · exact ⟨t, h, htp⟩

/-- The missing-parent pass fails only with `ERROR_MISSING_PARENT`. -/
theorem missingParentPass_error_eq (m : List (Nat × Sample)) :
    ∀ (l : List Sample) (e : Err), missingParentPass m l = .error e →
      e = Err.ERROR_MISSING_PARENT := by
  intro l
  induction l with
  | nil => intro e h; simp [missingParentPass] at h
  | cons s rest ih =>
    intro e h
    simp only [missingParentPass] at h
    split at h
    · exact (Except.error.injEq _ _).mp h.symm
    · exact ih e h

/-- The missing-parent pass fails when some sample's stored parent is neither
the sentinel nor a key of the index. -/
theorem missingParentPass_error_of_exists (m : List (Nat × Sample)) :
    ∀ (l : List Sample),
      (∃ s ∈ l, s.parentId ≠ SWC_ROOT ∧ containsA m s.parentId = false) →
      missingParentPass m l = .error Err.ERROR_MISSING_PARENT := by
  intro l
  induction l with
  | nil => intro hex; simp at hex
  | cons s rest ih =>
    intro hex
    simp only [missingParentPass]
    split
    · rfl
    · rcases hex with ⟨t, htmem, htp⟩
      rcases List.mem_cons.mp htmem with h | h
      · exact absurd (h ▸ htp) (by assumption)
      · exact ih ⟨t, h, htp⟩

/-- After a successful validation loop, a key is in `samples_` exactly when it
was there initially or is the id of a processed sample. -/
theorem pass1Aux_lookup_isSome (all : List Sample) :
    ∀ (l : List Sample) (st st' : State1), pass1Aux all l st = .ok st' →
      ∀ k, (lookupA st'.samples_ k).isSome = true ↔
        ((lookupA st.samples_ k).isSome = true ∨ ∃ t ∈ l, t.id = k) := by
  intro l
  induction l with
  | nil =>
    intro st st' h k
    simp only [pass1Aux, Except.ok.injEq] at h
    simp [h]
  | cons s rest ih =>
    intro st st' h k
    cases heq : step1 all st s with
    | error e =>
      simp only [pass1Aux, heq] at h
      exact absurd h (by simp)
    | ok st1 =>
      simp only [pass1Aux, heq] at h
      obtain ⟨_, _, h3, hst1⟩ := (step1_ok_iff all st s st1).mp heq
      have hfs : lookupA st.samples_ s.id = none := by
        simpa [containsA, Option.isSome_iff_exists] using h3
      have hins := lookupA_isSome_insertSorted st.samples_ s.id s hfs k
      rw [ih st1 st' h k, hst1]
      simp only [hins, List.mem_cons, exists_eq_or_imp]
      constructor
      · rintro ((h | h) | h)
        · exact Or.inr (Or.inl h.symm)
        · exact Or.inl h
        · exact Or.inr (Or.inr h)
      · rintro (h | h | h)
        · exact Or.inl (Or.inr h)
        · exact Or.inl (Or.inl h.symm)
        · exact Or.inr h

/-- The cylinders-soma loop never fails with `ERROR_SELF_PARENT`. -/
theorem cylLoop_error_ne_self (samples_ : List (Nat × Sample))
    (children_ : List (Nat × List Nat)) :
    ∀ (l : List Sample) (pc : Nat) (ps : List Point) (ds : List ℚ) (e : Err),
      buildSomaCylindersLoop samples_ children_ l pc ps ds = .error e →
      e ≠ Err.ERROR_SELF_PARENT := by
  intro l
  induction l with
  | nil => intro pc ps ds e h; simp [buildSomaCylindersLoop] at h
  | cons s rest ih =>
    intro pc ps ds e h
    simp only [buildSomaCylindersLoop] at h
    split at h
    next e1 heq =>
      cases h
      split at heq
      · cases heq
      · split at heq
        · cases heq; simp
        · split at heq
          · cases heq; simp
          · cases heq
    next pc' heq =>
      split at h
      next e2 heq2 =>
        cases h
        split at heq2
        · split at heq2
          · cases heq2; simp
          · cases heq2
        · cases heq2
      next heq2 =>
        exact ih _ _ _ _ h

/-- The cylinders-soma builder never fails with `ERROR_SELF_PARENT`. -/
theorem buildSomaCylinders_error_ne_self (samples_ : List (Nat × Sample))
    (children_ : List (Nat × List Nat)) (l : List Sample) (e : Err)
    (h : buildSomaCylinders samples_ children_ l = .error e) :
    e ≠ Err.ERROR_SELF_PARENT := by
  simp only [buildSomaCylinders] at h
  split at h
  next e1 heq =>
    cases h
    exact cylLoop_error_ne_self samples_ children_ l 0 [] [] _ heq
  next out heq =>
    split at h
    · cases h; simp
    · cases h

/-- The soma classifier never fails with `ERROR_SELF_PARENT`. -/
theorem build_soma_error_ne_self (samples_ : List (Nat × Sample))
    (children_ : List (Nat × List Nat)) (l : List Sample) (e : Err)
    (h : build_soma samples_ children_ l = .error e) :
    e ≠ Err.ERROR_SELF_PARENT := by
  match l with
  | [] => simp [build_soma] at h
  | [sample] =>
    simp only [build_soma] at h
    split at h
    · cases h
    · split at h
      · cases h; simp
      · split at h
        · cases h; simp
        · cases h
  | [a, b] =>
    simp only [build_soma] at h
    exact buildSomaCylinders_error_ne_self samples_ children_ _ e h
  | center :: child1 :: child2 :: [] =>
    simp only [build_soma] at h
    split at h
    · cases h
    · exact buildSomaCylinders_error_ne_self samples_ children_ _ e h
  | a :: b :: c :: d :: rest =>
    simp only [build_soma] at h
    exact buildSomaCylinders_error_ne_self samples_ children_ _ e h

/-- The chain-collapsing loop never fails with `ERROR_SELF_PARENT`. -/
theorem chainLoop_error_ne_self (samples_ : List (Nat × Sample))
    (children_ : List (Nat × List Nat)) :
    ∀ (fuel id : Nat) (ps : List Point) (ds : List ℚ) (e : Err),
      chainLoop samples_ children_ fuel id ps ds = .error e →
      e ≠ Err.ERROR_SELF_PARENT := by
  intro fuel
  induction fuel with
  | zero => intro id ps ds e h; cases h; simp [chainLoop] at *
  | succ fuel ih =>
    intro id ps ds e h
    simp only [chainLoop] at h
    split at h
    · split at h
      · cases h; simp
      · split at h
        · cases h; simp
        · split at h
          · cases h
          · exact ih _ _ _ _ h
    · cases h

/-- The tree assembler never fails with `ERROR_SELF_PARENT`. -/
theorem assembleSections_error_ne_self (samples_ : List (Nat × Sample))
    (children_ : List (Nat × List Nat)) (chainFuel : Nat) :
    ∀ (fuel : Nat) (jobs : List Job) (declared : List (Nat × Nat))
      (sections : List Sec) (e : Err),
      assembleSections samples_ children_ chainFuel fuel jobs declared sections = .error e →
      e ≠ Err.ERROR_SELF_PARENT := by
  intro fuel
  induction fuel with
  | zero => intro jobs declared sections e h; cases h; simp [assembleSections] at *
  | succ fuel ih =>
    intro jobs declared sections e h
    match jobs with
    | [] => simp [assembleSections] at h
    | job :: rest =>
      simp only [assembleSections] at h
      split at h
      · cases h; simp
      · split at h
        next e1 heq =>
          cases h
          exact chainLoop_error_ne_self samples_ children_ _ _ _ _ _ heq
        next out heq =>
          split at h
          · cases h; simp
          · split at h
            next e2 heq2 =>
              cases h
              split at heq2
              · cases heq2
              · split at heq2
                · cases heq2; simp
                · cases heq2
            next pidx heq2 =>
              split at h
              · exact ih _ _ _ _ h
              · split at h
                · exact ih _ _ _ _ h
                · exact ih _ _ _ _ h

/-- The per-root child loop never fails with `ERROR_SELF_PARENT`. -/
theorem rootChildLoop_error_ne_self (samples_ : List (Nat × Sample))
    (children_ : List (Nat × List Nat)) (soma : Soma) (fuel : Nat) (root : Sample) :
    ∀ (l : List Nat) (declared : List (Nat × Nat)) (sections : List Sec) (e : Err),
      rootChildLoop samples_ children_ soma fuel root l declared sections = .error e →
      e ≠ Err.ERROR_SELF_PARENT := by
  intro l
  induction l with
  | nil => intro declared sections e h; simp [rootChildLoop] at h
  | cons childId rest ih =>
    intro declared sections e h
    simp only [rootChildLoop] at h
    split at h
    · cases h; simp
    · split at h
      · exact ih _ _ _ h
      · split at h
        · split at h
          · split at h
            next e1 heq =>
              cases h
              exact assembleSections_error_ne_self samples_ children_ fuel _ _ _ _ _ heq
            next out heq =>
              exact ih _ _ _ h
          · cases h; simp
        · exact assembleSections_error_ne_self samples_ children_ fuel _ _ _ _ _ h

/-- The root loop never fails with `ERROR_SELF_PARENT`. -/
theorem rootLoop_error_ne_self (samples_ : List (Nat × Sample))
    (children_ : List (Nat × List Nat)) (soma : Soma) (fuel : Nat) :
    ∀ (l : List Sample) (declared : List (Nat × Nat)) (sections : List Sec)
      (warnings : List Warning) (e : Err),
      rootLoop samples_ children_ soma fuel l declared sections warnings = .error e →
      e ≠ Err.ERROR_SELF_PARENT := by
  intro l
  induction l with
  | nil => intro declared sections warnings e h; simp [rootLoop] at h
  | cons root rest ih =>
    intro declared sections warnings e h
    simp only [rootLoop] at h
    split at h
    · exact ih _ _ _ _ h
    · split at h
      next e1 heq =>
        cases h
        exact rootChildLoop_error_ne_self samples_ children_ soma fuel root _ _ _ _ heq
      next out heq =>
        exact ih _ _ _ _ h

/-! ### C6: self-parent detection (amended theorem) -/

/-- C6 amended: given that every record's type is in the valid range and ids
are pairwise distinct, `buildSWC` fails with `ERROR_SELF_PARENT` exactly when
some record's stored `parentId` equals its stored `id` — where textual parent
`-1` is stored as the sentinel `0xFFFFFFFD`, so a record with textual parent
`-1` and id `4294967293` is also reported. -/
theorem C6_self_parent (samples : List Sample)
    (htype : ∀ s ∈ samples, 0 < s.type ∧ s.type < SECTION_OUT_OF_RANGE_START)
    (hids : samples.Pairwise (fun a b => a.id ≠ b.id)) :
    buildSWC samples = .error Err.ERROR_SELF_PARENT ↔
      ∃ s ∈ samples, s.parentId = s.id := by
  constructor
  · intro h
    unfold buildSWC at h
    cases hp : pass1 samples with
    | error e =>
      simp only [hp, Except.error.injEq] at h
      rw [h] at hp
      exact pass1Aux_self_of_error samples samples _ hp
    | ok st =>
      simp only [hp] at h
      exfalso
      cases hm : missingParentPass st.samples_ samples with
      | error e2 =>
        simp only [hm, Except.error.injEq] at h
        rw [h] at hm
        have := missingParentPass_error_eq st.samples_ samples _ hm
        simp at this
      | ok u =>
        simp only [hm] at h
        cases hb : build_soma st.samples_ st.children_ st.soma_samples with
        | error e3 =>
          simp only [hb, Except.error.injEq] at h
          rw [h] at hb
          exact build_soma_error_ne_self _ _ _ _ hb rfl
        | ok sw =>
          obtain ⟨soma, w1⟩ := sw
          simp only [hb] at h
          cases hr : rootLoop st.samples_ st.children_ soma (samples.length + 1)
            st.root_samples [] [] [] with
          | error e4 =>
            simp only [hr, Except.error.injEq] at h
            rw [h] at hr
            exact rootLoop_error_ne_self _ _ _ _ _ _ _ _ _ hr rfl
          | ok out =>
            obtain ⟨sections, d, w2⟩ := out
            simp only [hr] at h
            simp at h
  · intro hex
    have hp : pass1 samples = .error Err.ERROR_SELF_PARENT :=
      pass1Aux_self_of_exists samples samples _ htype
        (fun s _ => by simp [lookupA]) hids hex
    unfold buildSWC
    simp only [hp]

/-- Witness for C6: a record whose stored parent equals its id is reported,
and the theorem's equivalence holds at that input. -/
theorem C6_self_parent_witness :
    buildSWC [⟨7, 1, (0, 0, 0), 2, 7, 1⟩] = .error Err.ERROR_SELF_PARENT ↔
      ∃ s ∈ [(⟨7, 1, (0, 0, 0), 2, 7, 1⟩ : Sample)], s.parentId = s.id :=
  C6_self_parent [⟨7, 1, (0, 0, 0), 2, 7, 1⟩] (by decide) (by decide)

/-! ### C7: missing parents (amended theorem) -/

/-- C7 amended: when the validation pass succeeds and some record's stored
`parentId` (textual parent reduced mod `2^32`, with `-1` stored as the
sentinel `0xFFFFFFFD`) is neither the sentinel nor the stored id of any
record, the load fails with `ERROR_MISSING_PARENT`.  (A textual parent of
`4294967293` coincides with the sentinel and is exempt.) -/
theorem C7_missing_parent (samples : List Sample) (st : State1)
    (h : pass1 samples = .ok st) (s : Sample) (hmem : s ∈ samples)
    (hroot : s.parentId ≠ SWC_ROOT)
    (hdangling : ∀ t ∈ samples, t.id ≠ s.parentId) :
    buildSWC samples = .error Err.ERROR_MISSING_PARENT := by
  have hkeys := pass1Aux_lookup_isSome samples samples _ st h s.parentId
  have hnone : containsA st.samples_ s.parentId = false := by
    simp only [lookupA] at hkeys
    rw [containsA]
    cases hl : (lookupA st.samples_ s.parentId).isSome
    · rfl
    · exfalso
      rcases hkeys.mp hl with h' | ⟨t, htm, hti⟩
      · simp at h'
      · exact hdangling t htm hti
  have hmp : missingParentPass st.samples_ samples = .error Err.ERROR_MISSING_PARENT :=
    missingParentPass_error_of_exists st.samples_ samples ⟨s, hmem, hroot, hnone⟩
  unfold buildSWC
  simp only [h, hmp]

/-- Witness for C7: a record with parent 99 and no record with id 99. -/
theorem C7_missing_parent_witness :
    buildSWC [⟨1, 2, (0, 0, 0), 2, 99, 1⟩] = .error Err.ERROR_MISSING_PARENT :=
  C7_missing_parent [⟨1, 2, (0, 0, 0), 2, 99, 1⟩]
    ⟨[(1, ⟨1, 2, (0, 0, 0), 2, 99, 1⟩)], [(99, [1])], [], [], []⟩
    (by decide) ⟨1, 2, (0, 0, 0), 2, 99, 1⟩ (by decide) (by decide) (by decide)

/-! ### C2: soma classification -/

/-- On success, the cylinders loop appends exactly the samples' points and
diameters in source order. -/
theorem cylLoop_ok_acc (samples_ : List (Nat × Sample))
    (children_ : List (Nat × List Nat)) :
    ∀ (l : List Sample) (pc : Nat) (ps : List Point) (ds : List ℚ)
      (out : Nat × List Point × List ℚ),
      buildSomaCylindersLoop samples_ children_ l pc ps ds = .ok out →
      out.2.1 = ps ++ l.map Sample.point ∧ out.2.2 = ds ++ l.map Sample.diameter := by
  intro l
  induction l with
  | nil =>
    intro pc ps ds out h
    simp only [buildSomaCylindersLoop, Except.ok.injEq] at h
    simp [← h]
  | cons s rest ih =>
    intro pc ps ds out h
    simp only [buildSomaCylindersLoop] at h
    split at h
    · cases h
    · split at h
      · cases h
      · have := ih _ _ _ _ h
        simpa using this

/-- On success, the cylinders branch produces a `CYLINDERS` soma carrying the
soma samples' points and diameters in source order, and no warnings. -/
theorem buildSomaCylinders_ok (samples_ : List (Nat × Sample))
    (children_ : List (Nat × List Nat)) (l : List Sample) (soma : Soma)
    (w : List Warning)
    (h : buildSomaCylinders samples_ children_ l = .ok (soma, w)) :
    soma = ⟨SomaType.CYLINDERS, l.map Sample.point, l.map Sample.diameter⟩ ∧ w = [] := by
  simp only [buildSomaCylinders] at h
  cases heq : buildSomaCylindersLoop samples_ children_ l 0 [] [] with
  | error e =>
    simp only [heq] at h
    exact absurd h (by simp)
  | ok out =>
    obtain ⟨pc, ps, ds⟩ := out
    have hacc := cylLoop_ok_acc samples_ children_ l 0 [] [] _ heq
    simp only [List.nil_append] at hacc
    obtain ⟨hps, hds⟩ := hacc
    simp only [heq] at h
    split at h
    · cases h
    · simp only [Except.ok.injEq, Prod.mk.injEq] at h
      obtain ⟨h1, h2⟩ := h
      refine ⟨?_, h2.symm⟩
      rw [← h1, hps, hds]

/-- On success, `build_soma` produces exactly the spec-classified variant with
the samples' points and diameters in source order. -/
theorem build_soma_ok_shape (samples_ : List (Nat × Sample))
    (children_ : List (Nat × List Nat)) (ss : List Sample) (soma : Soma)
    (w : List Warning)
    (h : build_soma samples_ children_ ss = .ok (soma, w)) :
    soma = ⟨classifySomaSpec ss, ss.map Sample.point, ss.map Sample.diameter⟩ := by
  match ss with
  | [] =>
    simp only [build_soma, Except.ok.injEq, Prod.mk.injEq] at h
    rw [← h.1]
    simp [classifySomaSpec]
  | [sample] =>
    simp only [build_soma] at h
    split at h
    · simp only [Except.ok.injEq, Prod.mk.injEq] at h
      rw [← h.1]
      simp [classifySomaSpec]
    · split at h
      · cases h
      · split at h
        · cases h
        · simp only [Except.ok.injEq, Prod.mk.injEq] at h
          rw [← h.1]
          simp [classifySomaSpec]
  | [center, child1, child2] =>
    simp only [build_soma] at h
    split at h
    next hcond =>
      simp only [Except.ok.injEq, Prod.mk.injEq] at h
      rw [← h.1]
      simp [classifySomaSpec, if_pos (And.intro hcond.1.symm hcond.2.symm)]
    next hcond =>
      have hsh := buildSomaCylinders_ok samples_ children_ _ _ _ h
      rw [hsh.1]
      have hple : ¬(child1.parentId = center.id ∧ child2.parentId = center.id) := by
        intro hc
        exact hcond ⟨hc.1.symm, hc.2.symm⟩
      simp [classifySomaSpec, if_neg hple]
  | [a, b] =>
    simp only [build_soma] at h
    have hsh := buildSomaCylinders_ok samples_ children_ _ _ _ h
    rw [hsh.1]
    simp [classifySomaSpec]
  | a :: b :: c :: d :: rest =>
    simp only [build_soma] at h
    have hsh := buildSomaCylinders_ok samples_ children_ _ _ _ h
    rw [hsh.1]
    simp [classifySomaSpec]

/-- C2 (confirmed): on success, the soma variant is exactly the one the spec
describes (`classifySomaSpec`), the soma's points and diameters are the soma
samples' points and (already doubled-radius) diameters in source order, and an
empty soma-sample list is never by itself a fatal error. -/
theorem C2_soma_classification (samples_ : List (Nat × Sample))
    (children_ : List (Nat × List Nat)) (ss : List Sample) (soma : Soma)
    (w : List Warning)
    (h : build_soma samples_ children_ ss = .ok (soma, w)) :
    soma.type = classifySomaSpec ss ∧
    soma.points = ss.map Sample.point ∧
    soma.diameters = ss.map Sample.diameter ∧
    build_soma samples_ children_ [] = .ok (⟨SomaType.UNDEFINED, [], []⟩, []) := by
  have hs := build_soma_ok_shape samples_ children_ ss soma w h
  subst hs
  exact ⟨rfl, rfl, rfl, rfl⟩

/-- Witness for C2 at a single-sample soma with no parent. -/
theorem C2_soma_classification_witness :
    (⟨SomaType.SINGLE_POINT, [((0 : ℚ), (0 : ℚ), (0 : ℚ))], [(2 : ℚ)]⟩ : Soma).type =
        classifySomaSpec [⟨1, 1, (0, 0, 0), 2, SWC_ROOT, 1⟩] ∧
      (⟨SomaType.SINGLE_POINT, [((0 : ℚ), (0 : ℚ), (0 : ℚ))], [(2 : ℚ)]⟩ : Soma).points =
        [⟨1, 1, (0, 0, 0), 2, SWC_ROOT, 1⟩].map Sample.point ∧
      (⟨SomaType.SINGLE_POINT, [((0 : ℚ), (0 : ℚ), (0 : ℚ))], [(2 : ℚ)]⟩ : Soma).diameters =
        [⟨1, 1, (0, 0, 0), 2, SWC_ROOT, 1⟩].map Sample.diameter ∧
      build_soma [] [] [] = .ok (⟨SomaType.UNDEFINED, [], []⟩, []) :=
  C2_soma_classification [] [] [⟨1, 1, (0, 0, 0), 2, SWC_ROOT, 1⟩]
    ⟨SomaType.SINGLE_POINT, [(0, 0, 0)], [2]⟩ [] (by rfl)

/-! ### C3: the neuromorpho three-point conformance warning -/

/-- The source predicate equals the spec's description: warn exactly when the
arrangement is not canonical but the children coincide with the center in x, z
and diameter within epsilon. -/
theorem check3Point_iff (c a b : Sample) :
    checkNeuromorph3PointSoma c a b = true ↔
      (¬ canonical3Point c a b ∧ close3Point c a b) := by
  unfold checkNeuromorph3PointSoma canonical3Point close3Point
  simp only [Bool.and_eq_true, Bool.or_eq_true, decide_eq_true_iff]
  constructor
  · intro h
    obtain ⟨⟨⟨⟨⟨⟨hor, h1⟩, h2⟩, h3⟩, h4⟩, h5⟩, h6⟩ := h
    refine ⟨?_, h1, h2, h3, h4, h5, h6⟩
    intro hc
    obtain ⟨c1, c2, c3, c4, c5, c6, c7, c8⟩ := hc
    rcases hor with (((((((k | k) | k) | k) | k) | k) | k) | k)
    · exact k c1
    · exact k c2
    · exact k c3
    · exact k c4
    · exact k c5
    · exact k c6
    · exact k c7
    · exact k c8
  · intro h
    obtain ⟨hnc, h1, h2, h3, h4, h5, h6⟩ := h
    refine ⟨⟨⟨⟨⟨⟨?_, h1⟩, h2⟩, h3⟩, h4⟩, h5⟩, h6⟩
    by_contra hall
    push_neg at hall
    obtain ⟨⟨⟨⟨⟨⟨⟨k1, k2⟩, k3⟩, k4⟩, k5⟩, k6⟩, k7⟩, k8⟩ := hall
    exact hnc ⟨k1, k2, k3, k4, k5, k6, k7, k8⟩

/-- C3 (confirmed): for a soma classified `NEUROMORPHO_THREE_POINT_CYLINDERS`
(three samples, children parented on the center), the `SOMA_NON_CONFORM`
warning is emitted exactly when the children are not precisely at
`(x, y−r, z, d)` and `(x, y+r, z, d)` while their x, z and diameter are each
within `epsilon` of the center's; in particular no warning is emitted for the
exactly canonical arrangement. -/
theorem C3_nonconform_warning (samples_ : List (Nat × Sample))
    (children_ : List (Nat × List Nat)) (c a b : Sample) (soma : Soma)
    (w : List Warning)
    (hpar : a.parentId = c.id ∧ b.parentId = c.id)
    (h : build_soma samples_ children_ [c, a, b] = .ok (soma, w)) :
    Warning.SOMA_NON_CONFORM ∈ w ↔
      (¬ canonical3Point c a b ∧ close3Point c a b) := by
  simp only [build_soma] at h
  rw [if_pos (And.intro hpar.1.symm hpar.2.symm)] at h
  simp only [Except.ok.injEq, Prod.mk.injEq] at h
  rw [← h.2, ← check3Point_iff c a b]
  by_cases hck : checkNeuromorph3PointSoma c a b = true
  · simp [hck]
  · simp [hck]

/-- Witness for C3 at the canonical S2 soma: the warning list is empty and
indeed the arrangement is canonical. -/
theorem C3_nonconform_warning_witness :
    Warning.SOMA_NON_CONFORM ∈ ([] : List Warning) ↔
      (¬ canonical3Point s2center s2child1 s2child2 ∧
        close3Point s2center s2child1 s2child2) :=
  C3_nonconform_warning [] [] s2center s2child1 s2child2
    ⟨SomaType.NEUROMORPHO_THREE_POINT_CYLINDERS,
      [(0, 0, 0), (0, -1, 0), (0, 1, 0)], [2, 2, 2]⟩ []
    ⟨rfl, rfl⟩ (by decide)

/-! ### C8: fork duplication -/

/-- A `some` result of `get?` implies the index is in bounds. -/
theorem get?_some_lt {α : Type} {l : List α} {n : Nat} {a : α}
    (h : l.get? n = some a) : n < l.length := by
  by_contra hn
  push_neg at hn
  rw [List.get?_eq_none.mpr hn] at h
  cases h

/-- Lookup after `insertReplace`. -/
theorem lookupA_insertReplace {α : Type} (m : List (Nat × α)) (k : Nat) (v : α)
    (k' : Nat) :
    lookupA (insertReplace m k v) k' = if k' = k then some v else lookupA m k' := by
  induction m with
  | nil => simp [insertReplace, lookupA]
  | cons p rest ih =>
    obtain ⟨k0, v0⟩ := p
    simp only [insertReplace]
    by_cases h1 : k = k0
    · subst h1
      rw [if_pos rfl]
      simp only [lookupA]
      by_cases h2 : k' = k
      · simp [h2]
      · simp [h2]
    · rw [if_neg h1]
      by_cases h2 : k < k0
      · rw [if_pos h2]
        simp only [lookupA]
      · rw [if_neg h2]
        simp only [lookupA]
        by_cases h3 : k' = k0
        · have hk : k' ≠ k := fun hh => h1 (hh ▸ h3)
          rw [if_pos h3, if_neg hk, if_pos h3]
        · rw [if_neg h3, ih, if_neg h3]

/-- `chainLoop` only appends: on success the point accumulator either is
unchanged (and the id unchanged), or extends the input by the entry sample's
point first. -/
theorem chainLoop_shape (samples_ : List (Nat × Sample))
    (children_ : List (Nat × List Nat)) :
    ∀ (fuel id : Nat) (ps : List Point) (ds : List ℚ) (id' : Nat)
      (ps1 : List Point) (ds1 : List ℚ) (cc : Nat),
      chainLoop samples_ children_ fuel id ps ds = .ok (id', ps1, ds1, cc) →
      (ps1 = ps ∧ id' = id) ∨
      (∃ s0 tail, lookupA samples_ id = some s0 ∧ ps1 = ps ++ s0.point :: tail) := by
  intro fuel
  induction fuel with
  | zero => intro id ps ds id' ps1 ds1 cc h; simp [chainLoop] at h
  | succ fuel ih =>
    intro id ps ds id' ps1 ds1 cc h
    simp only [chainLoop] at h
    split at h
    · split at h
      · cases h
      next sample hsample =>
        split at h
        · cases h
        next child hchild =>
          split at h
          · simp only [Except.ok.injEq, Prod.mk.injEq] at h
            exact Or.inl ⟨h.2.1.symm, h.1.symm⟩
          · rcases ih _ _ _ _ _ _ _ h with ⟨h1, _⟩ | ⟨s0, tail, _, hps⟩
            · exact Or.inr ⟨sample, [], hsample, by rw [h1]⟩
            · refine Or.inr ⟨sample, s0.point :: tail, hsample, ?_⟩
              rw [hps, List.append_assoc]
              rfl
    · simp only [Except.ok.injEq, Prod.mk.injEq] at h
      exact Or.inl ⟨h.2.1.symm, h.1.symm⟩

/-- Core invariant preservation for the assembler. -/
theorem assembleSections_inv (samples_ : List (Nat × Sample))
    (children_ : List (Nat × List Nat)) (chainFuel : Nat) :
    ∀ (fuel : Nat) (jobs : List Job) (declared : List (Nat × Nat))
      (sections : List Sec) (out : List Sec × List (Nat × Nat)),
      assembleSections samples_ children_ chainFuel fuel jobs declared sections = .ok out →
      sectionsInv sections → declaredInv samples_ declared sections →
      jobsInv samples_ jobs →
      sectionsInv out.1 ∧ declaredInv samples_ out.2 out.1 := by
  intro fuel
  induction fuel with
  | zero => intro jobs declared sections out h _ _ _; simp [assembleSections] at h
  | succ fuel ih =>
    intro jobs declared sections out h hsec hdec hjobs
    match jobs with
    | [] =>
      simp only [assembleSections, Except.ok.injEq] at h
      rw [← h]
      exact ⟨hsec, hdec⟩
    | job :: rest =>
      simp only [assembleSections] at h
      split at h
      · cases h
      next sample hsample =>
        split at h
        · cases h
        next id' ps1 ds1 cc hcl =>
          split at h
          · cases h
          next sample' hsample' =>
            split at h
            · cases h
            next pidx hpidx =>
              have hjob0 := hjobs job (List.mem_cons_self job rest)
              have hrest : jobsInv samples_ rest :=
                fun j hj => hjobs j (List.mem_cons_of_mem job hj)
              -- the parent index is either absent (root) or declared
              have hpar : pidx = none ∨ ∃ j, pidx = some j ∧
                  lookupA declared job.parentId = some j ∧ job.isRoot = false := by
                by_cases hr : job.isRoot = true
                · rw [if_pos hr] at hpidx
                  simp only [Except.ok.injEq] at hpidx
                  exact Or.inl hpidx.symm
                · rw [if_neg hr] at hpidx
                  cases hld : lookupA declared job.parentId with
                  | none =>
                    simp only [hld] at hpidx
                    exact absurd hpidx (by simp)
                  | some j =>
                    simp only [hld, Except.ok.injEq] at hpidx
                    exact Or.inr ⟨j, hpidx.symm, rfl, Bool.not_eq_true _ ▸ hr⟩
              -- head of the new section's points, for non-root jobs
              have hheadstart : job.isRoot = false →
                  (ps1 ++ [sample'.point]).head? = some job.startPoint := by
                intro hroot
                rcases chainLoop_shape samples_ children_ _ _ _ _ _ _ _ _ hcl with
                  ⟨hps, hid⟩ | ⟨s0, tail, hs0, hps⟩
                · by_cases hdup : job.isRoot = false ∧ sample.point ≠ job.startPoint
                  · rw [hps, if_pos hdup]
                    rfl
                  · have hsp : sample.point = job.startPoint := by
                      rcases not_and_or.mp hdup with hc | hc
                      · exact absurd hroot hc
                      · exact not_not.mp hc
                    have hss : sample' = sample := by
                      rw [hid] at hsample'
                      rw [hsample'] at hsample
                      exact (Option.some.injEq _ _).mp hsample
                    rw [hps, if_neg hdup, hss, hsp]
                    rfl
                · have hs0s : s0 = sample := by
                    rw [hsample] at hs0
                    exact ((Option.some.injEq _ _).mp hs0).symm
                  by_cases hdup : job.isRoot = false ∧ sample.point ≠ job.startPoint
                  · rw [hps, if_pos hdup]
                    rfl
                  · have hsp : sample.point = job.startPoint := by
                      rcases not_and_or.mp hdup with hc | hc
                      · exact absurd hroot hc
                      · exact not_not.mp hc
                    rw [hps, if_neg hdup, hs0s, hsp]
                    rfl
              -- the extended section list satisfies the invariant
              have hsec' : sectionsInv (sections ++ [⟨ps1 ++ [sample'.point],
                  ds1 ++ [sample'.diameter], sample'.type, pidx⟩]) := by
                intro i sec hi
                by_cases hlt : i < sections.length
                · rw [List.get?_append hlt] at hi
                  obtain ⟨hne, hparent⟩ := hsec i sec hi
                  refine ⟨hne, ?_⟩
                  intro j hj
                  obtain ⟨psec, hpsec, hhead⟩ := hparent j hj
                  refine ⟨psec, ?_, hhead⟩
                  rw [List.get?_append (get?_some_lt hpsec)]
                  exact hpsec
                · have hlen : i = sections.length := by
                    have h2 := get?_some_lt hi
                    rw [List.length_append, List.length_singleton] at h2
                    omega
                  subst hlen
                  rw [List.get?_concat_length] at hi
                  have hi' := (Option.some.injEq _ _).mp hi
                  refine ⟨by rw [← hi']; simp, ?_⟩
                  intro j hj
                  have hj2 : pidx = some j := by
                    rw [← hi'] at hj
                    exact hj
                  rcases hpar with hnone | ⟨j0, hj0, hld, hroot⟩
                  · rw [hnone] at hj2
                    cases hj2
                  · rw [hj0] at hj2
                    have hjj := (Option.some.injEq _ _).mp hj2
                    subst hjj
                    obtain ⟨sk, psec, hsk, hpsec, hpne, hplast⟩ := hdec _ _ hld
                    obtain ⟨sp, hsp, hstart⟩ := hjob0 hroot
                    have hsksp : sk = sp := by
                      rw [hsk] at hsp
                      exact (Option.some.injEq _ _).mp hsp
                    refine ⟨psec, ?_, ?_⟩
                    · rw [List.get?_append (get?_some_lt hpsec)]
                      exact hpsec
                    · have hh : sec.points.head? = some job.startPoint := by
                        rw [← hi']
                        exact hheadstart hroot
                      rw [hh, hplast, hstart, hsksp]
              -- the updated declared map satisfies the invariant
              have hdec' : declaredInv samples_
                  (insertReplace declared id' sections.length)
                  (sections ++ [⟨ps1 ++ [sample'.point],
                    ds1 ++ [sample'.diameter], sample'.type, pidx⟩]) := by
                intro k idx hk
                rw [lookupA_insertReplace] at hk
                by_cases hkk : k = id'
                · rw [if_pos hkk] at hk
                  have hidx := (Option.some.injEq _ _).mp hk
                  subst hkk
                  refine ⟨sample', ⟨ps1 ++ [sample'.point], ds1 ++ [sample'.diameter],
                    sample'.type, pidx⟩, hsample', ?_, by simp, List.getLast?_concat _⟩
                  rw [← hidx]
                  exact List.get?_concat_length _ _
                · rw [if_neg hkk] at hk
                  obtain ⟨sk, sec, hsk, hsec2, hne, hlast⟩ := hdec k idx hk
                  refine ⟨sk, sec, hsk, ?_, hne, hlast⟩
                  rw [List.get?_append (get?_some_lt hsec2)]
                  exact hsec2
              -- the last accumulated point is the final sample's point
              have hlastD : (ps1 ++ [sample'.point]).getLastD ((0 : ℚ), (0 : ℚ), (0 : ℚ)) =
                  sample'.point := by
                simp [List.getLastD_concat]
              split at h
              · exact ih _ _ _ _ h hsec' hdec' hrest
              · split at h
                · refine ih _ _ _ _ h hsec' hdec' ?_
                  intro j hj hjroot
                  rcases List.mem_cons.mp hj with hj1 | hj2
                  · rw [hj1]
                    exact ⟨sample', hsample', hlastD⟩
                  · exact hrest j hj2 hjroot
                · refine ih _ _ _ _ h hsec' hdec' ?_
                  intro j hj hjroot
                  rcases List.mem_append.mp hj with hj1 | hj2
                  · obtain ⟨c, _, hc⟩ := List.mem_map.mp hj1
                    rw [← hc]
                    exact ⟨sample', hsample', hlastD⟩
                  · exact hrest j hj2 hjroot



/-- Invariant preservation for the per-root child loop. -/
theorem rootChildLoop_inv (samples_ : List (Nat × Sample))
    (children_ : List (Nat × List Nat)) (soma : Soma) (fuel : Nat) (root : Sample) :
    ∀ (l : List Nat) (declared : List (Nat × Nat)) (sections : List Sec)
      (out : List Sec × List (Nat × Nat)),
      rootChildLoop samples_ children_ soma fuel root l declared sections = .ok out →
      sectionsInv sections → declaredInv samples_ declared sections →
      sectionsInv out.1 ∧ declaredInv samples_ out.2 out.1 := by
  intro l
  induction l with
  | nil =>
    intro declared sections out h hs hd
    simp only [rootChildLoop, Except.ok.injEq] at h
    rw [← h]
    exact ⟨hs, hd⟩
  | cons childId rest ih =>
    intro declared sections out h hs hd
    simp only [rootChildLoop] at h
    split at h
    · cases h
    next child hchild =>
      split at h
      · exact ih _ _ _ h hs hd
      · split at h
        · split at h
          · split at h
            · cases h
            next out1 hasm =>
              have hinv := assembleSections_inv samples_ children_ fuel fuel _ _ _ _
                hasm hs hd (by
                  intro j hj hr
                  rw [List.mem_singleton.mp hj] at hr
                  simp at hr)
              exact ih _ _ _ h hinv.1 hinv.2
          · cases h
        · exact assembleSections_inv samples_ children_ fuel fuel _ _ _ _ h hs hd (by
            intro j hj hr
            rw [List.mem_singleton.mp hj] at hr
            simp at hr)

/-- Invariant preservation for the root loop. -/
theorem rootLoop_inv (samples_ : List (Nat × Sample))
    (children_ : List (Nat × List Nat)) (soma : Soma) (fuel : Nat) :
    ∀ (l : List Sample) (declared : List (Nat × Nat)) (sections : List Sec)
      (warnings : List Warning) (out : List Sec × List (Nat × Nat) × List Warning),
      rootLoop samples_ children_ soma fuel l declared sections warnings = .ok out →
      sectionsInv sections → declaredInv samples_ declared sections →
      sectionsInv out.1 := by
  intro l
  induction l with
  | nil =>
    intro declared sections warnings out h hs hd
    simp only [rootLoop, Except.ok.injEq] at h
    rw [← h]
    exact hs
  | cons root rest ih =>
    intro declared sections warnings out h hs hd
    simp only [rootLoop] at h
    split at h
    · exact ih _ _ _ _ h hs hd
    · split at h
      · cases h
      next out1 hchildloop =>
        have hinv := rootChildLoop_inv samples_ children_ soma fuel root _ _ _ _
          hchildloop hs hd
        exact ih _ _ _ _ h hinv.1 hinv.2

/-- C8 (confirmed): every section list built by `buildSWC` satisfies the
fork-duplication invariant — every non-root section's first point equals the
last point of the parent section it was appended to (and no section is
empty). -/
theorem C8_fork_duplication (samples : List Sample) (props : Properties)
    (w : List Warning) (h : buildSWC samples = .ok (props, w)) :
    sectionsInv props.sections := by
  unfold buildSWC at h
  cases hp : pass1 samples with
  | error e =>
    simp only [hp] at h
    exact absurd h (by simp)
  | ok st =>
    simp only [hp] at h
    cases hm : missingParentPass st.samples_ samples with
    | error e =>
      simp only [hm] at h
      exact absurd h (by simp)
    | ok u =>
      simp only [hm] at h
      cases hb : build_soma st.samples_ st.children_ st.soma_samples with
      | error e =>
        simp only [hb] at h
        exact absurd h (by simp)
      | ok sw =>
        obtain ⟨soma, w1⟩ := sw
        simp only [hb] at h
        cases hr : rootLoop st.samples_ st.children_ soma (samples.length + 1)
          st.root_samples [] [] [] with
        | error e =>
          simp only [hr] at h
          exact absurd h (by simp)
        | ok out3 =>
          obtain ⟨sections, d, w2⟩ := out3
          simp only [hr, Except.ok.injEq, Prod.mk.injEq] at h
          have hinv := rootLoop_inv st.samples_ st.children_ soma (samples.length + 1)
            st.root_samples [] [] [] _ hr
            (by intro i sec hi; simp at hi)
            (by intro k idx hk; simp [lookupA] at hk)
          rw [← h.1]
          exact hinv


theorem C8_fork_duplication_witness :
    buildSWC s5samples = .ok (s5props, []) ∧ sectionsInv s5props.sections :=
  ⟨by decide, C8_fork_duplication s5samples s5props [] (by decide)⟩

/-! ### C4: order independence up to adjacent child-parent transpositions -/

/-- Key-disjoint sorted insertions commute. -/
theorem insertSorted_comm {α : Type} (k1 k2 : Nat) (v1 v2 : α) (h : k1 ≠ k2) :
    ∀ m : List (Nat × α),
      insertSorted (insertSorted m k1 v1) k2 v2 =
        insertSorted (insertSorted m k2 v2) k1 v1 := by
  intro m
  induction m with
  | nil =>
    simp only [insertSorted]
    rcases Nat.lt_or_ge k1 k2 with hlt | hge
    · rw [if_neg (by omega), if_pos hlt]
    · rw [if_pos (by omega), if_neg (by omega)]
  | cons p rest ih =>
    obtain ⟨k0, v0⟩ := p
    simp only [insertSorted]
    by_cases h1 : k1 < k0
    · by_cases h2 : k2 < k0
      · rcases Nat.lt_or_ge k1 k2 with hlt | hge
        · simp only [insertSorted, if_neg (by omega : ¬k2 < k1), if_pos hlt, if_pos h2,
            if_pos h1]
        · simp only [insertSorted, if_pos (by omega : k2 < k1), if_pos h1, if_pos h2,
            if_neg (by omega : ¬k1 < k2)]
      · simp only [insertSorted, if_pos h1, if_neg h2, if_neg (by omega : ¬k2 < k1),
          if_pos h1]
    · by_cases h2 : k2 < k0
      · simp only [insertSorted, if_neg h1, if_pos h2, if_neg (by omega : ¬k1 < k2),
          if_neg h1]
      · simp only [insertSorted, if_neg h1, if_neg h2]
        rw [ih]

/-- Key-disjoint child-list appends commute. -/
theorem childAppend_comm (k1 k2 v1 v2 : Nat) (h : k1 ≠ k2) :
    ∀ m : List (Nat × List Nat),
      childAppend (childAppend m k1 v1) k2 v2 =
        childAppend (childAppend m k2 v2) k1 v1 := by
  intro m
  induction m with
  | nil =>
    rcases Nat.lt_or_ge k1 k2 with hlt | hge
    · simp [childAppend, h, h.symm, hlt, (by omega : ¬k2 < k1)]
      all_goals try omega
      all_goals try rw [if_neg (by omega)]
    · simp [childAppend, h, h.symm, (by omega : k2 < k1), (by omega : ¬k1 < k2)]
      all_goals try omega
      all_goals try rw [if_neg (by omega)]
  | cons p rest ih =>
    obtain ⟨k0, l0⟩ := p
    by_cases e1 : k1 = k0
    · subst e1
      by_cases hlt : k2 < k1
      · simp [childAppend, h, h.symm, hlt, (by omega : ¬k1 < k2)]
        all_goals try omega
        all_goals try rw [if_neg (by omega)]
      · simp [childAppend, h, h.symm, hlt]
        all_goals try omega
        all_goals try rw [if_neg (by omega)]
    · by_cases e2 : k2 = k0
      · subst e2
        by_cases hlt : k1 < k2
        · simp [childAppend, h, h.symm, hlt, (by omega : ¬k2 < k1)]
          all_goals try omega
          all_goals try rw [if_neg (by omega)]
        · simp [childAppend, h, h.symm, hlt]
          all_goals try omega
          all_goals try rw [if_neg (by omega)]
      · by_cases h1 : k1 < k0
        · by_cases h2 : k2 < k0
          · rcases Nat.lt_or_ge k1 k2 with hlt | hge
            · simp [childAppend, h, h.symm, e1, e2, h1, h2, hlt,
                (by omega : ¬k2 < k1)]
              all_goals try omega
              all_goals try rw [if_neg (by omega)]
            · simp [childAppend, h, h.symm, e1, e2, h1, h2,
                (by omega : k2 < k1), (by omega : ¬k1 < k2)]
              all_goals try omega
              all_goals try rw [if_neg (by omega)]
          · simp [childAppend, h, h.symm, e1, e2, h1, h2,
              (by omega : ¬k2 < k1)]
            all_goals try omega
            all_goals try rw [if_neg (by omega)]
        · by_cases h2 : k2 < k0
          · simp [childAppend, h, h.symm, e1, e2, h1, h2,
              (by omega : ¬k1 < k2)]
            all_goals try omega
            all_goals try rw [if_neg (by omega)]
          · simp [childAppend, h, h.symm, e1, e2, h1, h2, ih]
            all_goals try omega
            all_goals try rw [if_neg (by omega)]

/-- `containsA` after inserting a fresh distinct key. -/
theorem containsA_insertSorted_ne {α : Type} (m : List (Nat × α)) (k : Nat) (v : α)
    (k' : Nat) (hfresh : lookupA m k = none) (hne : k' ≠ k) :
    containsA (insertSorted m k v) k' = containsA m k' := by
  simp [containsA, lookupA_insertSorted m k v hfresh, hne]

/-- Splitting the validation loop over an append. -/
theorem pass1Aux_append (a : List Sample) :
    ∀ (l1 l2 : List Sample) (st : State1),
      pass1Aux a (l1 ++ l2) st =
        match pass1Aux a l1 st with
        | .error e => .error e
        | .ok st' => pass1Aux a l2 st' := by
  intro l1
  induction l1 with
  | nil => intro l2 st; simp [pass1Aux]
  | cons s rest ih =>
    intro l2 st
    simp only [List.cons_append, pass1Aux]
    cases h : step1 a st s <;> simp [h, ih]

/-- Step congruence: warning-independent state components and success are
preserved by `step1` across core-equal states (the `allSamples` argument only
feeds the repeated-id diagnostic). -/
theorem step1_coreEq (a1 a2 : List Sample) (st1 st2 : State1) (s : Sample)
    (h : coreEq st1 st2) :
    ((step1 a1 st1 s).isOk = false ∧ (step1 a2 st2 s).isOk = false) ∨
    (∃ r1 r2, step1 a1 st1 s = .ok r1 ∧ step1 a2 st2 s = .ok r2 ∧ coreEq r1 r2) := by
  obtain ⟨h1, h2, h3, h4⟩ := h
  by_cases c1 : s.parentId = s.id
  · left
    constructor <;> simp [step1, c1, Except.isOk, Except.toBool]
  · by_cases c2 : SECTION_OUT_OF_RANGE_START ≤ s.type ∨ s.type ≤ 0
    · left
      constructor <;> simp [step1, c1, c2, Except.isOk, Except.toBool]
    · by_cases c3 : containsA st1.samples_ s.id = true
      · left
        have c3' : containsA st2.samples_ s.id = true := h1 ▸ c3
        constructor <;> simp [step1, c1, c2, c3, c3', Except.isOk, Except.toBool]
      · right
        have c3' : containsA st2.samples_ s.id = false := by
          rw [← h1]
          simpa using c3
        refine ⟨_, _, (step1_ok_iff a1 st1 s _).mpr ⟨c1, c2, by simpa using c3, rfl⟩,
          (step1_ok_iff a2 st2 s _).mpr ⟨c1, c2, c3', rfl⟩, ?_⟩
        exact ⟨by simp [h1], by simp [h2], by simp [h3], by simp [h4]⟩

/-- Fold congruence for the validation loop over core-equal states. -/
theorem pass1Aux_coreEq (a1 a2 : List Sample) :
    ∀ (l : List Sample) (st1 st2 : State1), coreEq st1 st2 →
    ((pass1Aux a1 l st1).isOk = false ∧ (pass1Aux a2 l st2).isOk = false) ∨
    (∃ r1 r2, pass1Aux a1 l st1 = .ok r1 ∧ pass1Aux a2 l st2 = .ok r2 ∧
      coreEq r1 r2) := by
  intro l
  induction l with
  | nil => intro st1 st2 h; right; exact ⟨st1, st2, rfl, rfl, h⟩
  | cons s rest ih =>
    intro st1 st2 h
    rcases step1_coreEq a1 a2 st1 st2 s h with ⟨e1, e2⟩ | ⟨r1, r2, hs1, hs2, hr⟩
    · left
      cases hh1 : step1 a1 st1 s with
      | ok r => rw [hh1] at e1; simp [Except.isOk, Except.toBool] at e1
      | error er1 =>
        cases hh2 : step1 a2 st2 s with
        | ok r => rw [hh2] at e2; simp [Except.isOk, Except.toBool] at e2
        | error er2 =>
          constructor <;> simp [pass1Aux, hh1, hh2, Except.isOk, Except.toBool]
    · simp only [pass1Aux, hs1, hs2]
      exact ih r1 r2 hr

/-- `step1` failing with an out-of-range type. -/
theorem step1_type_error (a : List Sample) (st : State1) (s : Sample)
    (hself : s.parentId ≠ s.id)
    (ht : SECTION_OUT_OF_RANGE_START ≤ s.type ∨ s.type ≤ 0) :
    step1 a st s = .error Err.ERROR_UNSUPPORTED_SECTION_TYPE := by
  unfold step1
  rw [if_neg hself, if_pos ht]

/-- `step1` failing with a repeated id. -/
theorem step1_repeated_error (a : List Sample) (st : State1) (s : Sample)
    (hself : s.parentId ≠ s.id)
    (ht : ¬(SECTION_OUT_OF_RANGE_START ≤ s.type ∨ s.type ≤ 0))
    (hcon : containsA st.samples_ s.id = true) :
    step1 a st s = .error (Err.ERROR_REPEATED_ID (a.get? s.id)) := by
  unfold step1
  rw [if_neg hself, if_neg ht, if_pos hcon]

/-- A failed containment test gives a `none` lookup. -/
theorem containsA_false {α : Type} (m : List (Nat × α)) (k : Nat)
    (h : ¬containsA m k = true) : lookupA m k = none := by
  rw [containsA] at h
  exact Option.not_isSome_iff_eq_none.mp (by simpa using h)

/-- Processing an adjacent child-parent pair in either order gives core-equal
states (or fails in both orders), when the child is not soma-typed, the ids
differ, the parent id is not the sentinel, and the parent is not its own
parent. -/
theorem pass1Aux_swap (a1 a2 : List Sample) (st1 st2 : State1) (hc : coreEq st1 st2)
    (cs ps : Sample) (hcp : cs.parentId = ps.id) (hcns : cs.type ≠ SECTION_SOMA)
    (hids : cs.id ≠ ps.id) (hpr : ps.id ≠ SWC_ROOT) (hpp : ps.parentId ≠ ps.id) :
    ((pass1Aux a1 [cs, ps] st1).isOk = false ∧
      (pass1Aux a2 [ps, cs] st2).isOk = false) ∨
    (∃ r1 r2, pass1Aux a1 [cs, ps] st1 = .ok r1 ∧ pass1Aux a2 [ps, cs] st2 = .ok r2 ∧
      coreEq r1 r2) := by
  obtain ⟨h1, h2, h3, h4⟩ := hc
  have hCself : cs.parentId ≠ cs.id := by
    rw [hcp]
    exact fun hh => hids hh.symm
  by_cases tC : SECTION_OUT_OF_RANGE_START ≤ cs.type ∨ cs.type ≤ 0
  · left
    constructor
    · simp [pass1Aux, step1_type_error a1 st1 cs hCself tC, Except.isOk, Except.toBool]
    · cases hP : step1 a2 st2 ps with
      | error e => simp [pass1Aux, hP, Except.isOk, Except.toBool]
      | ok sp2 =>
        simp [pass1Aux, hP, step1_type_error a2 sp2 cs hCself tC,
          Except.isOk, Except.toBool]
  · by_cases tP : SECTION_OUT_OF_RANGE_START ≤ ps.type ∨ ps.type ≤ 0
    · left
      constructor
      · cases hC : step1 a1 st1 cs with
        | error e => simp [pass1Aux, hC, Except.isOk, Except.toBool]
        | ok sc1 =>
          simp [pass1Aux, hC, step1_type_error a1 sc1 ps hpp tP,
            Except.isOk, Except.toBool]
      · simp [pass1Aux, step1_type_error a2 st2 ps hpp tP, Except.isOk, Except.toBool]
    · by_cases conC : containsA st1.samples_ cs.id = true
      · left
        constructor
        · simp [pass1Aux, step1_repeated_error a1 st1 cs hCself tC conC,
            Except.isOk, Except.toBool]
        · by_cases conP : containsA st1.samples_ ps.id = true
          · simp [pass1Aux, step1_repeated_error a2 st2 ps hpp tP (h1 ▸ conP),
              Except.isOk, Except.toBool]
          · cases hP : step1 a2 st2 ps with
            | error e => simp [pass1Aux, hP, Except.isOk, Except.toBool]
            | ok sp2 =>
              obtain ⟨-, -, -, hsp2⟩ := (step1_ok_iff a2 st2 ps sp2).mp hP
              have hfreshP : lookupA st2.samples_ ps.id = none := by
                rw [← h1]
                exact containsA_false st1.samples_ ps.id conP
              have hconC2 : containsA sp2.samples_ cs.id = true := by
                rw [hsp2]
                simp only
                rw [containsA_insertSorted_ne st2.samples_ ps.id ps cs.id hfreshP hids,
                  ← h1]
                exact conC
              simp [pass1Aux, hP, step1_repeated_error a2 sp2 cs hCself tC hconC2,
                Except.isOk, Except.toBool]
      · by_cases conP : containsA st1.samples_ ps.id = true
        · left
          constructor
          · cases hC : step1 a1 st1 cs with
            | error e => simp [pass1Aux, hC, Except.isOk, Except.toBool]
            | ok sc1 =>
              obtain ⟨-, -, -, hsc1⟩ := (step1_ok_iff a1 st1 cs sc1).mp hC
              have hfreshC : lookupA st1.samples_ cs.id = none :=
                containsA_false st1.samples_ cs.id (by simpa using conC)
              have hconP1 : containsA sc1.samples_ ps.id = true := by
                rw [hsc1]
                simp only
                rw [containsA_insertSorted_ne st1.samples_ cs.id cs ps.id hfreshC
                  (fun hh => hids hh.symm)]
                exact conP
              simp [pass1Aux, hC, step1_repeated_error a1 sc1 ps hpp tP hconP1,
                Except.isOk, Except.toBool]
          · simp [pass1Aux, step1_repeated_error a2 st2 ps hpp tP (h1 ▸ conP),
              Except.isOk, Except.toBool]
        · right
          have hfreshC : lookupA st1.samples_ cs.id = none :=
            containsA_false st1.samples_ cs.id (by simpa using conC)
          have hfreshP : lookupA st1.samples_ ps.id = none :=
            containsA_false st1.samples_ ps.id (by simpa using conP)
          obtain ⟨sc1, hC1⟩ : ∃ sc1, step1 a1 st1 cs = .ok sc1 :=
            ⟨_, (step1_ok_iff a1 st1 cs _).mpr ⟨hCself, tC, by simpa using conC, rfl⟩⟩
          obtain ⟨-, -, -, hsc1⟩ := (step1_ok_iff a1 st1 cs sc1).mp hC1
          have hconP1 : containsA sc1.samples_ ps.id = false := by
            rw [hsc1]
            simp only
            rw [containsA_insertSorted_ne st1.samples_ cs.id cs ps.id hfreshC
              (fun hh => hids hh.symm)]
            simpa using conP
          obtain ⟨sp1, hP1⟩ : ∃ sp1, step1 a1 sc1 ps = .ok sp1 :=
            ⟨_, (step1_ok_iff a1 sc1 ps _).mpr ⟨hpp, tP, hconP1, rfl⟩⟩
          obtain ⟨-, -, -, hsp1⟩ := (step1_ok_iff a1 sc1 ps sp1).mp hP1
          obtain ⟨sp2, hP2⟩ : ∃ sp2, step1 a2 st2 ps = .ok sp2 :=
            ⟨_, (step1_ok_iff a2 st2 ps _).mpr
              ⟨hpp, tP, by rw [← h1]; simpa using conP, rfl⟩⟩
          obtain ⟨-, -, -, hsp2⟩ := (step1_ok_iff a2 st2 ps sp2).mp hP2
          have hfreshP2 : lookupA st2.samples_ ps.id = none := by
            rw [← h1]
            exact hfreshP
          have hconC2 : containsA sp2.samples_ cs.id = false := by
            rw [hsp2]
            simp only
            rw [containsA_insertSorted_ne st2.samples_ ps.id ps cs.id hfreshP2 hids,
              ← h1]
            simpa using conC
          obtain ⟨sc2, hC2⟩ : ∃ sc2, step1 a2 sp2 cs = .ok sc2 :=
            ⟨_, (step1_ok_iff a2 sp2 cs _).mpr ⟨hCself, tC, hconC2, rfl⟩⟩
          obtain ⟨-, -, -, hsc2⟩ := (step1_ok_iff a2 sp2 cs sc2).mp hC2
          have hCpP : cs.parentId ≠ ps.parentId := by
            rw [hcp]
            exact fun hh => hpp hh.symm
          have hCroot : ¬(cs.parentId = SWC_ROOT ∨ cs.type = SECTION_SOMA) := by
            push_neg
            exact ⟨by rw [hcp]; exact hpr, hcns⟩
          refine ⟨sp1, sc2, by simp only [pass1Aux, hC1, hP1],
            by simp only [pass1Aux, hP2, hC2], ?_, ?_, ?_, ?_⟩
          · simp only [hsp1, hsc1, hsc2, hsp2]
            rw [← h1]
            exact insertSorted_comm cs.id ps.id cs ps hids st1.samples_
          · simp only [hsp1, hsc1, hsc2, hsp2]
            rw [← h2]
            exact childAppend_comm cs.parentId ps.parentId cs.id ps.id hCpP st1.children_
          · simp only [hsp1, hsc1, hsc2, hsp2, if_neg hcns]
            rw [← h3]
          · simp only [hsp1, hsc1, hsc2, hsp2, if_neg hCroot]
            rw [← h4]

/-- A failing validation prefix fails the whole fold. -/
theorem pass1Aux_isOk_false_left (a l1 l2 : List Sample) (st : State1)
    (h : (pass1Aux a l1 st).isOk = false) :
    (pass1Aux a (l1 ++ l2) st).isOk = false := by
  rw [pass1Aux_append]
  cases hx : pass1Aux a l1 st with
  | error e => simp [Except.isOk, Except.toBool]
  | ok st' => rw [hx] at h; simp [Except.isOk, Except.toBool] at h

/-- A failing validation suffix fails the whole fold. -/
theorem pass1Aux_isOk_false_right (a l1 l2 : List Sample) (st st' : State1)
    (h1 : pass1Aux a l1 st = .ok st') (h : (pass1Aux a l2 st').isOk = false) :
    (pass1Aux a (l1 ++ l2) st).isOk = false := by
  rw [pass1Aux_append, h1]
  exact h

/-- Composing two successful validation segments. -/
theorem pass1Aux_append_ok (a l1 l2 : List Sample) (st st' r : State1)
    (h1 : pass1Aux a l1 st = .ok st') (h2 : pass1Aux a l2 st' = .ok r) :
    pass1Aux a (l1 ++ l2) st = .ok r := by
  rw [pass1Aux_append, h1]
  exact h2

/-- The swap lemma lifted to a transposition in the middle of the sample
list: either both orders fail validation, or both succeed with core-equal
states. -/
theorem pass1Aux_swap_append (a1 a2 pre post : List Sample) (cs ps : Sample)
    (hcp : cs.parentId = ps.id) (hcns : cs.type ≠ SECTION_SOMA)
    (hids : cs.id ≠ ps.id) (hpr : ps.id ≠ SWC_ROOT) (hpp : ps.parentId ≠ ps.id)
    (st1 st2 : State1) (hc : coreEq st1 st2) :
    ((pass1Aux a1 (pre ++ cs :: ps :: post) st1).isOk = false ∧
      (pass1Aux a2 (pre ++ ps :: cs :: post) st2).isOk = false) ∨
    (∃ r1 r2, pass1Aux a1 (pre ++ cs :: ps :: post) st1 = .ok r1 ∧
      pass1Aux a2 (pre ++ ps :: cs :: post) st2 = .ok r2 ∧ coreEq r1 r2) := by
  have eq1 : pre ++ cs :: ps :: post = pre ++ ([cs, ps] ++ post) := rfl
  have eq2 : pre ++ ps :: cs :: post = pre ++ ([ps, cs] ++ post) := rfl
  rw [eq1, eq2]
  rcases pass1Aux_coreEq a1 a2 pre st1 st2 hc with ⟨f1, f2⟩ | ⟨r1, r2, hr1, hr2, hr⟩
  · exact Or.inl ⟨pass1Aux_isOk_false_left a1 pre _ st1 f1,
      pass1Aux_isOk_false_left a2 pre _ st2 f2⟩
  · rcases pass1Aux_swap a1 a2 r1 r2 hr cs ps hcp hcns hids hpr hpp with
      ⟨f1, f2⟩ | ⟨s1, s2, hs1, hs2, hsc⟩
    · exact Or.inl ⟨pass1Aux_isOk_false_right a1 pre _ st1 r1 hr1
        (pass1Aux_isOk_false_left a1 [cs, ps] post r1 f1),
        pass1Aux_isOk_false_right a2 pre _ st2 r2 hr2
        (pass1Aux_isOk_false_left a2 [ps, cs] post r2 f2)⟩
    · rcases pass1Aux_coreEq a1 a2 post s1 s2 hsc with ⟨f1, f2⟩ | ⟨t1, t2, ht1, ht2, htc⟩
      · exact Or.inl ⟨pass1Aux_isOk_false_right a1 pre _ st1 r1 hr1
          (pass1Aux_isOk_false_right a1 [cs, ps] post r1 s1 hs1 f1),
          pass1Aux_isOk_false_right a2 pre _ st2 r2 hr2
          (pass1Aux_isOk_false_right a2 [ps, cs] post r2 s2 hs2 f2)⟩
      · exact Or.inr ⟨t1, t2,
          pass1Aux_append_ok a1 pre _ st1 r1 t1 hr1
            (pass1Aux_append_ok a1 [cs, ps] post r1 s1 t1 hs1 ht1),
          pass1Aux_append_ok a2 pre _ st2 r2 t2 hr2
            (pass1Aux_append_ok a2 [ps, cs] post r2 s2 t2 hs2 ht2),
          htc⟩

/-- The missing-parent pass succeeds iff no sample has a dangling parent. -/
theorem missingParentPass_ok_iff (m : List (Nat × Sample)) :
    ∀ l : List Sample, missingParentPass m l = .ok () ↔
      ∀ s ∈ l, ¬(s.parentId ≠ SWC_ROOT ∧ containsA m s.parentId = false) := by
  intro l
  induction l with
  | nil => simp [missingParentPass]
  | cons s rest ih =>
    simp only [missingParentPass]
    split
    · next hbad =>
      constructor
      · intro h
        exact absurd h (by simp)
      · intro h
        exact absurd hbad (h s (List.mem_cons_self s rest))
    · next hgood =>
      rw [ih]
      constructor
      · intro h t ht
        rcases List.mem_cons.mp ht with hh | hh
        · exact hh ▸ hgood
        · exact h t hh
      · intro h t ht
        exact h t (List.mem_cons_of_mem s ht)

/-- The missing-parent pass only looks at which samples occur, not at their
order. -/
theorem missingParentPass_congr (m : List (Nat × Sample)) (l1 l2 : List Sample)
    (h : ∀ s, s ∈ l1 ↔ s ∈ l2) :
    missingParentPass m l1 = missingParentPass m l2 := by
  have key : ∀ la lb : List Sample, (∀ s, s ∈ la ↔ s ∈ lb) →
      missingParentPass m la = .ok () → missingParentPass m lb = .ok () := by
    intro la lb hab hok
    rw [missingParentPass_ok_iff]
    intro s hs
    exact (missingParentPass_ok_iff m la).mp hok s ((hab s).mpr hs)
  cases h1 : missingParentPass m l1 with
  | ok u =>
    cases u
    rw [key l1 l2 h h1]
  | error e =>
    have he := missingParentPass_error_eq m l1 e h1
    subst he
    cases h2 : missingParentPass m l2 with
    | ok u =>
      cases u
      rw [key l2 l1 (fun s => (h s).symm) h2] at h1
      exact absurd h1 (by simp)
    | error e2 =>
      rw [missingParentPass_error_eq m l2 e2 h2]

/-- C4 (amended): an adjacent transposition of a child line with its parent
line - the child not soma-typed, the two ids distinct, the parent id not the
sentinel and the parent not its own parent - does not change whether `load`'s
build succeeds, nor the properties it produces (warnings aside): forward
references are legal and order-independent under these side conditions. -/
theorem C4_transposition (pre post : List Sample) (cs ps : Sample)
    (hcp : cs.parentId = ps.id) (hcns : cs.type ≠ SECTION_SOMA)
    (hids : cs.id ≠ ps.id) (hpr : ps.id ≠ SWC_ROOT) (hpp : ps.parentId ≠ ps.id) :
    (buildSWC (pre ++ cs :: ps :: post)).toOption.map Prod.fst =
      (buildSWC (pre ++ ps :: cs :: post)).toOption.map Prod.fst ∧
    (buildSWC (pre ++ cs :: ps :: post)).isOk =
      (buildSWC (pre ++ ps :: cs :: post)).isOk := by
  rcases pass1Aux_swap_append (pre ++ cs :: ps :: post) (pre ++ ps :: cs :: post)
      pre post cs ps hcp hcns hids hpr hpp
      ⟨[], [], [], [], []⟩ ⟨[], [], [], [], []⟩ ⟨rfl, rfl, rfl, rfl⟩ with
    ⟨f1, f2⟩ | ⟨r1, r2, hr1, hr2, hcore⟩
  · have f1' : (pass1 (pre ++ cs :: ps :: post)).isOk = false := f1
    have f2' : (pass1 (pre ++ ps :: cs :: post)).isOk = false := f2
    cases hx1 : pass1 (pre ++ cs :: ps :: post) with
    | ok st =>
      rw [hx1] at f1'
      simp [Except.isOk, Except.toBool] at f1'
    | error e1 =>
      cases hx2 : pass1 (pre ++ ps :: cs :: post) with
      | ok st =>
        rw [hx2] at f2'
        simp [Except.isOk, Except.toBool] at f2'
      | error e2 =>
        have hb1 : buildSWC (pre ++ cs :: ps :: post) = .error e1 := by
          simp only [buildSWC, hx1]
        have hb2 : buildSWC (pre ++ ps :: cs :: post) = .error e2 := by
          simp only [buildSWC, hx2]
        rw [hb1, hb2]
        exact ⟨rfl, rfl⟩
  · obtain ⟨hs, hch, hsoma, hroot⟩ := hcore
    have hr1' : pass1 (pre ++ cs :: ps :: post) = .ok r1 := hr1
    have hr2' : pass1 (pre ++ ps :: cs :: post) = .ok r2 := hr2
    have hmem : ∀ s : Sample,
        s ∈ pre ++ cs :: ps :: post ↔ s ∈ pre ++ ps :: cs :: post := by
      intro s
      simp only [List.mem_append, List.mem_cons]
      tauto
    have hmp : missingParentPass r1.samples_ (pre ++ cs :: ps :: post) =
        missingParentPass r2.samples_ (pre ++ ps :: cs :: post) := by
      rw [hs]
      exact missingParentPass_congr r2.samples_ _ _ hmem
    have hlen : (pre ++ ps :: cs :: post).length =
        (pre ++ cs :: ps :: post).length := by
      simp
    cases hm : missingParentPass r1.samples_ (pre ++ cs :: ps :: post) with
    | error e =>
      have hm2 : missingParentPass r2.samples_ (pre ++ ps :: cs :: post) =
          .error e := by
        rw [← hmp]
        exact hm
      have hb1 : buildSWC (pre ++ cs :: ps :: post) = .error e := by
        simp only [buildSWC, hr1', hm]
      have hb2 : buildSWC (pre ++ ps :: cs :: post) = .error e := by
        simp only [buildSWC, hr2', hm2]
      rw [hb1, hb2]
      exact ⟨rfl, rfl⟩
    | ok u =>
      cases u
      have hm2 : missingParentPass r2.samples_ (pre ++ ps :: cs :: post) =
          .ok () := by
        rw [← hmp]
        exact hm
      cases hbs : build_soma r1.samples_ r1.children_ r1.soma_samples with
      | error e =>
        have hbs2 : build_soma r2.samples_ r2.children_ r2.soma_samples =
            .error e := by
          rw [← hs, ← hch, ← hsoma]
          exact hbs
        have hb1 : buildSWC (pre ++ cs :: ps :: post) = .error e := by
          simp only [buildSWC, hr1', hm, hbs]
        have hb2 : buildSWC (pre ++ ps :: cs :: post) = .error e := by
          simp only [buildSWC, hr2', hm2, hbs2]
        rw [hb1, hb2]
        exact ⟨rfl, rfl⟩
      | ok p =>
        obtain ⟨soma, w1⟩ := p
        have hbs2 : build_soma r2.samples_ r2.children_ r2.soma_samples =
            .ok (soma, w1) := by
          rw [← hs, ← hch, ← hsoma]
          exact hbs
        cases hrl : rootLoop r1.samples_ r1.children_ soma
            ((pre ++ cs :: ps :: post).length + 1) r1.root_samples [] [] [] with
        | error e =>
          have hrl2 : rootLoop r2.samples_ r2.children_ soma
              ((pre ++ ps :: cs :: post).length + 1) r2.root_samples [] [] [] =
              .error e := by
            rw [← hs, ← hch, ← hroot, hlen]
            exact hrl
          have hb1 : buildSWC (pre ++ cs :: ps :: post) = .error e := by
            simp only [buildSWC, hr1', hm, hbs, hrl]
          have hb2 : buildSWC (pre ++ ps :: cs :: post) = .error e := by
            simp only [buildSWC, hr2', hm2, hbs2, hrl2]
          rw [hb1, hb2]
          exact ⟨rfl, rfl⟩
        | ok q =>
          obtain ⟨sections, declared, w2⟩ := q
          have hrl2 : rootLoop r2.samples_ r2.children_ soma
              ((pre ++ ps :: cs :: post).length + 1) r2.root_samples [] [] [] =
              .ok (sections, declared, w2) := by
            rw [← hs, ← hch, ← hroot, hlen]
            exact hrl
          have hb1 : buildSWC (pre ++ cs :: ps :: post) =
              .ok (⟨soma, sections⟩, r1.warnings ++ w1 ++ w2) := by
            simp only [buildSWC, hr1', hm, hbs, hrl]
          have hb2 : buildSWC (pre ++ ps :: cs :: post) =
              .ok (⟨soma, sections⟩, r2.warnings ++ w1 ++ w2) := by
            simp only [buildSWC, hr2', hm2, hbs2, hrl2]
          rw [hb1, hb2]
          exact ⟨rfl, rfl⟩

/-- Witness for C4: swapping the adjacent child (id 3, parent 2) and parent
(id 2) lines after a soma line leaves the built properties and the success
flag unchanged. -/
theorem C4_transposition_witness :
    (buildSWC ([(⟨1, 1, (0, 0, 0), 2, SWC_ROOT, 1⟩ : Sample)] ++
        (⟨3, 2, (1, 0, 0), 2, 2, 3⟩ : Sample) ::
        (⟨2, 2, (2, 0, 0), 2, 1, 2⟩ : Sample) :: [])).toOption.map Prod.fst =
      (buildSWC ([(⟨1, 1, (0, 0, 0), 2, SWC_ROOT, 1⟩ : Sample)] ++
        (⟨2, 2, (2, 0, 0), 2, 1, 2⟩ : Sample) ::
        (⟨3, 2, (1, 0, 0), 2, 2, 3⟩ : Sample) :: [])).toOption.map Prod.fst ∧
    (buildSWC ([(⟨1, 1, (0, 0, 0), 2, SWC_ROOT, 1⟩ : Sample)] ++
        (⟨3, 2, (1, 0, 0), 2, 2, 3⟩ : Sample) ::
        (⟨2, 2, (2, 0, 0), 2, 1, 2⟩ : Sample) :: [])).isOk =
      (buildSWC ([(⟨1, 1, (0, 0, 0), 2, SWC_ROOT, 1⟩ : Sample)] ++
        (⟨2, 2, (2, 0, 0), 2, 1, 2⟩ : Sample) ::
        (⟨3, 2, (1, 0, 0), 2, 2, 3⟩ : Sample) :: [])).isOk :=
  C4_transposition [⟨1, 1, (0, 0, 0), 2, SWC_ROOT, 1⟩] []
    ⟨3, 2, (1, 0, 0), 2, 2, 3⟩ ⟨2, 2, (2, 0, 0), 2, 1, 2⟩
    (by decide) (by decide) (by decide) (by decide) (by decide)

end MorphioSWC
